import Mathlib

/-!
# Verification of the convoker command-line parsing library

A shallow embedding, in Lean 4, of the core of the `trailfrost/convoker`
repository: the input-schema data model (`src/input.ts`), the command tree and
the `Command.parse` binding algorithm (`src/command.ts`), the `alias`/`add`
tree operations, and the middleware `compose` dispatcher.

Modelling conventions:

* The repository's files contain several concatenated revisions of each
  module.  The embedding follows the newest revision, the one the claims
  cite: the `async parse` of the second `Command` class in `command.ts`
  (the one with `$allowSurpassArgLimit`, list entries and middleware) and
  the list-aware `convert` of `input.ts` (the revision that declares
  `$separator`, which that `parse` reads).
* JavaScript numbers are modelled as `JsNum`: either `NaN`, an infinity, or
  an exact rational.  No claim depends on IEEE-754 rounding; the claims only
  distinguish `NaN` from ordinary numbers, which the model represents
  faithfully.  `parseFloat` and `BigInt(string)` are modelled after their
  ECMAScript definitions (longest valid literal head for `parseFloat`,
  whole-string integer literal for `BigInt`, which throws on failure).
* Thrown JavaScript exceptions are modelled with `Except Thrown`; a
  promise rejection of `parse` is `Except.error`.
* JavaScript objects used as string-keyed records (`opts`, `input`) and
  `Map`s are modelled as association lists with overwrite-on-set
  (`setA`); only lookups of these maps matter to the modelled code, so the
  insertion-order bookkeeping of `Map` is not represented.
-/

namespace Convoker

/-- A JavaScript number: `NaN`, signed infinity, or an exact rational.
(IEEE-754 rounding is not modelled; no claim depends on it.) -/
inductive JsNum where
  | nan
  | posInf
  | negInf
  | num (q : ℚ)
deriving DecidableEq, Repr

/-- A JavaScript value as produced by the conversion layer: the typed values
`convert` can return, plus arrays for list entries. -/
inductive JsValue where
  | bool (b : Bool)
  | str (s : String)
  | num (n : JsNum)
  | bigint (i : ℤ)
  | arr (vs : List JsValue)

/-- Whitespace as skipped by the ECMAScript `StringToNumber`-family
conversions (approximated by Unicode whitespace). -/
def jsWhite (c : Char) : Bool := c.isWhitespace

/-- Value of a list of decimal digits, most significant first. -/
def digitsToNat (ds : List Char) : ℕ :=
  ds.foldl (fun a c => a * 10 + (c.toNat - 48)) 0

/-- `parseFloat`: skip leading whitespace, optional sign, `Infinity` or a
decimal literal (digits, optional fraction, optional exponent); the longest
valid head is converted; `NaN` if there is none. -/
def jsParseFloat (s : String) : JsNum :=
  let cs := s.data.dropWhile jsWhite
  let (neg, cs₁) : Bool × List Char :=
    match cs with
    | '+' :: t => (false, t)
    | '-' :: t => (true, t)
    | _ => (false, cs)
  if "Infinity".data.isPrefixOf cs₁ then
    (if neg then JsNum.negInf else JsNum.posInf)
  else
    let ip := cs₁.takeWhile Char.isDigit
    let r₁ := cs₁.dropWhile Char.isDigit
    let (fp, r₂) : List Char × List Char :=
      match r₁ with
      | '.' :: t => (t.takeWhile Char.isDigit, t.dropWhile Char.isDigit)
      | _ => ([], r₁)
    if ip = [] ∧ fp = [] then JsNum.nan
    else
      -- value = ± (ip.fp) · 10^ex, held exactly as
      -- (mantissa as an integer) · 10^ex / 10^(number of fraction digits)
      let base : ℕ := digitsToNat ip * 10 ^ fp.length + digitsToNat fp
      let (exNeg, exMag) : Bool × ℕ :=
        match r₂ with
        | e :: t =>
          if e = 'e' ∨ e = 'E' then
            let (es, t₂) : Bool × List Char :=
              match t with
              | '+' :: u => (false, u)
              | '-' :: u => (true, u)
              | _ => (false, t)
            let ed := t₂.takeWhile Char.isDigit
            if ed = [] then (false, 0) else (es, digitsToNat ed)
          else (false, 0)
        | [] => (false, 0)
      let nUp : ℕ := if exNeg then 0 else exMag
      let nDown : ℕ := fp.length + (if exNeg then exMag else 0)
      let numNat : ℕ := base * 10 ^ nUp
      JsNum.num (mkRat (if neg then -(numNat : ℤ) else (numNat : ℤ)) (10 ^ nDown))

/-- Digit value in radix `r` (`0-9a-fA-F`), if valid. -/
def radixDigit (r : ℕ) (c : Char) : Option ℕ :=
  let v : Option ℕ :=
    if c.isDigit then some (c.toNat - 48)
    else if 'a' ≤ c ∧ c ≤ 'f' then some (c.toNat - 87)
    else if 'A' ≤ c ∧ c ≤ 'F' then some (c.toNat - 55)
    else none
  match v with
  | some d => if d < r then some d else none
  | none => none

/-- Value of a non-empty digit string in radix `r`, if every digit is valid. -/
def parseRadix (r : ℕ) (t : List Char) : Option ℤ :=
  if t = [] then none
  else do
    let ds ← t.mapM (radixDigit r)
    pure ((ds.foldl (fun a d => a * r + d) 0 : ℕ) : ℤ)

/-- Signed decimal integer literal, whole string. -/
def decSigned (cs : List Char) : Option ℤ :=
  let (sg, t) : ℤ × List Char :=
    match cs with
    | '+' :: u => (1, u)
    | '-' :: u => (-1, u)
    | _ => (1, cs)
  if t ≠ [] ∧ t.all Char.isDigit then some (sg * (digitsToNat t : ℤ)) else none

/-- `BigInt(string)`: trim whitespace; empty means `0`; a `0x`/`0o`/`0b`
radix literal or a signed decimal literal must cover the whole remainder;
`none` models the thrown `SyntaxError`. -/
def jsBigInt (s : String) : Option ℤ :=
  let cs := ((s.data.dropWhile jsWhite).reverse.dropWhile jsWhite).reverse
  match cs with
  | [] => some 0
  | '0' :: c :: t =>
    if c = 'x' ∨ c = 'X' then parseRadix 16 t
    else if c = 'o' ∨ c = 'O' then parseRadix 8 t
    else if c = 'b' ∨ c = 'B' then parseRadix 2 t
    else decSigned cs
  | _ => decSigned cs

/-- `s.startsWith(p)`.  (Defined over the character lists so that closed
terms reduce definitionally.) -/
def jsStartsWith (s p : String) : Bool := p.data.isPrefixOf s.data

/-- `s.slice(n)` for a non-negative character count. -/
def strDrop (s : String) (n : ℕ) : String := ⟨s.data.drop n⟩

/-- Split a character list at every occurrence of `sep` (JS
`split(sep)` for a one-character separator). -/
def splitOnChar (sep : Char) : List Char → List (List Char)
  | [] => [[]]
  | c :: rest =>
    if c = sep then [] :: splitOnChar sep rest
    else
      match splitOnChar sep rest with
      | [] => [[c]]
      | g :: gs => (c :: g) :: gs

/-- `s.split(sep)` for an arbitrary separator: the empty separator splits
into single characters; otherwise scan for occurrences (the fuel, one unit
per consumed character, never runs out at `s.length`). -/
def splitStrAux (sep : List Char) : ℕ → List Char → List Char → List (List Char)
  | _, acc, [] => [acc.reverse]
  | 0, acc, cs => [acc.reverse ++ cs]
  | f + 1, acc, c :: rest =>
    if sep.isPrefixOf (c :: rest) then
      acc.reverse :: splitStrAux sep f [] ((c :: rest).drop sep.length)
    else splitStrAux sep f (c :: acc) rest

/-- JS `String.prototype.split` with a string separator. -/
def jsSplit (sep s : String) : List String :=
  if sep.data = [] then s.data.map String.singleton
  else (splitStrAux sep.data s.data.length [] s.data).map String.mk

/-- `const [key, value] = s.split("=")`: the first segment and, when a `=`
occurred, the second segment (later segments are dropped by the
destructuring). -/
def splitEq (s : String) : String × Option String :=
  match splitOnChar '=' s.data with
  | [] => ("", none)
  | [a] => (⟨a⟩, none)
  | a :: b :: _ => (⟨a⟩, some ⟨b⟩)

/-- `name.replace(/^-+/, "")`: strip leading dashes (Option constructor). -/
def stripDashes (s : String) : String := ⟨s.data.dropWhile (· = '-')⟩

/-- An entry kind: one of the basic tags, or an external Standard-Schema
validator.  A validator is modelled by its observable behaviour on a raw
string: a typed value, or a non-empty list of issue messages. -/
inductive Kind where
  | boolean
  | string
  | number
  | bigint
  | schema (validator : String → Except (List String) JsValue)

/-- `Kind.isBoolean`: the `option.$kind === "boolean"` test. -/
def Kind.isBoolean : Kind → Bool
  | .boolean => true
  | _ => false

/-- A thrown exception escaping the conversion layer: the `SyntaxError` of
`BigInt` on non-numeric text, or the `InputValidationError` raised when a
Standard-Schema validator reports issues. -/
inductive Thrown where
  | syntaxError
  | inputValidation (messages : List String)
deriving DecidableEq, Repr

/-- Modelled from the spec: the `validate` helper of `src/standard-schema.ts`
is absent from the sources (only its test and callers are present).  Per the
spec (§4.1) a validator "returns either a value or a non-empty list of issue
messages; a non-empty issue list fails with `InputValidationError` carrying
all messages". -/
def validate (f : String → Except (List String) JsValue) (val : String) :
    Except Thrown JsValue :=
  match f val with
  | .ok v => .ok v
  | .error msgs => .error (.inputValidation msgs)

/-- `convertOne` of `input.ts`: basic-kind conversion, else delegate to the
Standard-Schema `validate`. -/
def convertOne (k : Kind) (val : String) : Except Thrown JsValue :=
  match k with
  | .boolean => .ok (.bool (val == "true"))
  | .bigint =>
    match jsBigInt val with
    | some i => .ok (.bigint i)
    | none => .error .syntaxError
  | .number => .ok (.num (jsParseFloat val))
  | .string => .ok (.str val)
  | .schema f => validate f val

/-- Convert every element of a list, failing with the first element's error
(the behaviour of `Promise.all` over the synchronous conversions). -/
def convertMany (k : Kind) : List String → Except Thrown (List JsValue)
  | [] => .ok []
  | v :: vs => do
    let x ← convertOne k v
    let xs ← convertMany k vs
    pure (x :: xs)

/-- `convert` of `input.ts`: dispatch on `Array.isArray(value)`. -/
def convert (k : Kind) : String ⊕ List String → Except Thrown JsValue
  | .inl v => convertOne k v
  | .inr vs => (convertMany k vs).map JsValue.arr

/-- The `Option` schema class of `input.ts`: `$kind`, `$names`, `$default`
(`dflt`), `$required`, `$list`, `$separator`.  The `$description` field is
presentation-only (read only by the help renderer) and is not modelled. -/
structure OptData where
  kind : Kind
  names : List String
  dflt : Option JsValue
  required : Bool
  list : Bool
  separator : Option String

/-- The `Positional` schema class of `input.ts` (`$description` again not
modelled). -/
structure PosData where
  kind : Kind
  dflt : Option JsValue
  required : Bool
  list : Bool

/-- A schema entry: `Option` or `Positional` (the `instanceof Positional`
dispatch of `parse`). -/
inductive Entry where
  | opt (o : OptData)
  | pos (p : PosData)

/-- The entry's `$kind`. -/
def Entry.kind : Entry → Kind
  | .opt o => o.kind
  | .pos p => p.kind

/-- The `Option` constructor: `new Option(kind, names)` strips leading
dashes from every name; `$required` starts `true`, `$list` `false`. -/
def mkOption (kind : Kind) (names : List String) : OptData :=
  { kind := kind, names := names.map stripDashes, dflt := none,
    required := true, list := false, separator := none }

/-- The `Positional` constructor: `new Positional(kind)`. -/
def mkPositional (kind : Kind) : PosData :=
  { kind := kind, dflt := none, required := true, list := false }

mutual
/-- A command node: `$names`, `$input` (insertion-ordered field map, JS
object), `$allowUnknownOptions`, `$allowSurpassArgLimit`, `$children`
(insertion-ordered `Map` from alias to child).  The model owns children in
the node (the source's `$parent` back-pointer is the inverse of this
ownership and is not represented: `parse` is modelled as invoked on a
parentless root, for which the parent-merging branch of `buildInputMap` is
vacuous).  `$theme`, `$fn`, `$middlewares`, `$errorFn`, `$description` and
`$version` are not read by the modelled operations. -/
inductive Cmd where
  | mk (names : List String) (input : List (String × Entry))
       (allowUnknownOptions allowSurpassArgLimit : Bool) (children : Children)
/-- The `$children` map: alias name to child command.  The `CommandAlias.alias`
display-name metadata (read only by the help renderer) is not modelled. -/
inductive Children where
  | nil
  | cons (key : String) (cmd : Cmd) (rest : Children)
end

/-- The command's `$names`. -/
def Cmd.names : Cmd → List String
  | .mk n _ _ _ _ => n

/-- The command's `$input`. -/
def Cmd.input : Cmd → List (String × Entry)
  | .mk _ i _ _ _ => i

/-- The command's `$allowUnknownOptions`. -/
def Cmd.allowUnknownOptions : Cmd → Bool
  | .mk _ _ u _ _ => u

/-- The command's `$allowSurpassArgLimit`. -/
def Cmd.allowSurpassArgLimit : Cmd → Bool
  | .mk _ _ _ s _ => s

/-- The command's `$children`. -/
def Cmd.children : Cmd → Children
  | .mk _ _ _ _ c => c

/-- `$children.get(key)` (also serves as `$children.has(key)`). -/
def Children.get : Children → String → Option Cmd
  | .nil, _ => none
  | .cons k c rest, key => if k = key then some c else Children.get rest key

/-- `$children.set(key, value)`: overwrite in place or append. -/
def Children.set : Children → String → Cmd → Children
  | .nil, key, v => .cons key v .nil
  | .cons k c rest, key, v =>
    if k = key then .cons k v rest else .cons k c (Children.set rest key v)

/-- JS string-keyed `Map.set` / object assignment: overwrite or append. -/
def setA {α : Type} : List (String × α) → String → α → List (String × α)
  | [], k, v => [(k, v)]
  | (k', v') :: rest, k, v =>
    if k' = k then (k', v) :: rest else (k', v') :: setA rest k v

/-- JS `Map.get` / object property lookup. -/
def lookupA {α : Type} : List (String × α) → String → Option α
  | [], _ => none
  | (k', v') :: rest, k => if k' = k then some v' else lookupA rest k

/-- A merged-lookup-table value: `{ key, value }` of `buildInputMap`
(the schema field key and its entry). -/
abbrev StrMap := List (String × (String × Entry))

/-- The string-keyed part of one command's own `buildInputMap` entries: one
key per alias of each `Option` field, later fields overwriting earlier ones.
Positional entries receive numeric `Map` keys in the source; a numeric key
can never be returned by a string lookup and the numeric entries are never
queried by `parse`, so they are not represented.  `ownStep` registers one
field. -/
def ownStep (m : StrMap) (kv : String × Entry) : StrMap :=
  match kv with
  | (k, .opt o) => o.names.foldl (fun m n => setA m n (k, .opt o)) m
  | (_, .pos _) => m

/-- The string-keyed entries of one command's own fields, in declaration
order (later fields overwrite earlier ones on an alias collision). -/
def ownMap (input : List (String × Entry)) : StrMap :=
  input.foldl ownStep []

/-- Merge a map into another, the merged-in entries overwriting
(`for ([key, entry] of other) map.set(key, entry)`). -/
def mergeMap (m m' : StrMap) : StrMap :=
  m'.foldl (fun acc kv => setA acc kv.1 kv.2) m

mutual
/-- `buildInputMap` for a parentless command (the root `parse` is invoked
on): its own entries, then — in `$children` insertion order — every child's
`buildInputMap(true)` merged in, entries of later children overwriting. -/
def buildMapNP : Cmd → StrMap
  | .mk _ input _ _ children => mergeChildMaps (ownMap input) children
/-- Fold the children's maps into the accumulator. -/
def mergeChildMaps : StrMap → Children → StrMap
  | m, .nil => m
  | m, .cons _ c rest => mergeChildMaps (mergeMap m (buildMapNP c)) rest
end

/-- `add(command)`: register the child under each of its `$names` in the
parent's `$children` (the `{command}` / `{command, alias}` tuples differ
only in the unmodelled display-name metadata and the net `Map` value for
every name is the same child). -/
def Cmd.add (parent child : Cmd) : Cmd :=
  match parent with
  | .mk n i u s children =>
    .mk n i u s (child.names.foldl (fun ch nm => ch.set nm child) children)

/-- `alias(...aliases)`: the source evaluates `this.$names.concat(aliases)`
— `Array.prototype.concat` returns a fresh array, which the source
discards, so `$names` is unchanged — and then re-registers the command with
its parent via `this.$parent?.add(this)`.  The result is the updated
parent (the child is unchanged). -/
def aliasOp (parent child : Cmd) (aliases : List String) : Cmd :=
  let _ := child.names ++ aliases
  Cmd.add parent child

/-- Modelled from the spec: what §4.2 says `alias(...)` does — "appends
names and re-registers with the parent".  Used only to exhibit the
divergence from `aliasOp`; returns the updated parent and child. -/
def aliasPerSpec (parent child : Cmd) (aliases : List String) : Cmd × Cmd :=
  let child' : Cmd :=
    match child with
    | .mk n i u s c => .mk (n ++ aliases) i u s c
  (Cmd.add parent child', child')

/-- The parsing errors `parse` accumulates.  The source error classes also
carry the command and entry that raised them; no modelled behaviour reads
those fields, so only the discriminating data is kept. -/
inductive CliErr where
  | unknownOption (key : String)
  | missingRequiredOption (key : String)
  | missingRequiredArgument (key : String)
  | tooManyArguments
deriving DecidableEq, Repr

/-- The mutable state of the scanning loop of `parse`: the current
`command` cursor, `found`, `args`, `opts`, `errors`, `isHelp`,
`isVersion`. -/
structure ScanState where
  cmd : Cmd
  found : Bool
  args : List String
  opts : List (String × String)
  errors : List CliErr
  isHelp : Bool
  isVersion : Bool

/-- `getOption(key, isSpecial)`: look the key up in the merged table; on a
miss, record an `UnknownOptionError` unless the current command allows
unknown options or the key is special. -/
def getOption (map : StrMap) (st : ScanState) (key : String) (isSpecial : Bool) :
    Option Entry × ScanState :=
  match lookupA map key with
  | none =>
    if !st.cmd.allowUnknownOptions && !isSpecial then
      (none, { st with errors := st.errors ++ [.unknownOption key] })
    else (none, st)
  | some (_, e) => (some e, st)

/-- `setOption(key, option, value)`: booleans always bind `"true"`;
otherwise bind only a present value. -/
def setOpt (st : ScanState) (key : String) (e : Entry) (value : Option String) :
    ScanState :=
  if e.kind.isBoolean then { st with opts := setA st.opts key "true" }
  else
    match value with
    | some v => { st with opts := setA st.opts key v }
    | none => st

/-- The special-key test for long options: `help` / `version` set the
corresponding flag and mark the key special. -/
def specialLong (key : String) (st : ScanState) : ScanState × Bool :=
  if key = "help" then ({ st with isHelp := true }, true)
  else if key = "version" then ({ st with isVersion := true }, true)
  else (st, false)

/-- The special-character test for short options: `h` / `V`. -/
def specialShort (c : Char) (st : ScanState) : ScanState × Bool :=
  if c = 'h' then ({ st with isHelp := true }, true)
  else if c = 'V' then ({ st with isVersion := true }, true)
  else (st, false)

/-- The short-cluster walk of `parse`: each character is its own short
flag; a non-boolean flag finding `usedValue` empty consumes the next raw
token (`argv[++i]`); after each resolved flag `usedValue` is cleared
("only first consumes").  Returns the state and the tokens remaining after
the consumed look-aheads. -/
def clusterWalk (map : StrMap) :
    List Char → Option String → ScanState → List String → ScanState × List String
  | [], _, st, rest => (st, rest)
  | c :: cs, usedValue, st, rest =>
    let sp := specialShort c st
    match getOption map sp.1 (String.singleton c) sp.2 with
    | (none, st') => clusterWalk map cs usedValue st' rest
    | (some e, st') =>
      if !e.kind.isBoolean && usedValue = none then
        clusterWalk map cs none (setOpt st' (String.singleton c) e rest.head?) rest.tail
      else
        clusterWalk map cs none (setOpt st' (String.singleton c) e usedValue) rest

/-- The token-scanning loop of `parse`.  `fuel` bounds the number of loop
iterations; every iteration consumes at least the head token, so
`fuel = argv.length` (as `parse` passes) never runs out. -/
def scanTokens (map : StrMap) : ℕ → ScanState → List String → ScanState
  | _, st, [] => st
  | 0, st, _ :: _ => st
  | fuel + 1, st, arg :: rest =>
    if jsStartsWith arg "--" then
      let kv := splitEq (strDrop arg 2)
      let sp := specialLong kv.1 st
      match getOption map sp.1 kv.1 sp.2 with
      | (none, st') => scanTokens map fuel st' rest
      | (some e, st') =>
        match kv.2 with
        | none =>
          if e.kind.isBoolean then
            scanTokens map fuel (setOpt st' kv.1 e none) rest
          else
            scanTokens map fuel (setOpt st' kv.1 e rest.head?) rest.tail
        | some v => scanTokens map fuel (setOpt st' kv.1 e (some v)) rest
    else if jsStartsWith arg "-" then
      let kv := splitEq (strDrop arg 1)
      let res := clusterWalk map kv.1.data kv.2 st rest
      scanTokens map fuel res.1 res.2
    else
      match (if st.found then none else st.cmd.children.get arg) with
      | some child => scanTokens map fuel { st with cmd := child } rest
      | none =>
        scanTokens map fuel { st with found := true, args := st.args ++ [arg] } rest

/-- The alias search of the binding loop: the first of the entry's `$names`
with a bound raw value in `opts`. -/
def findNamed : List String → List (String × String) → Option String
  | [], _ => none
  | n :: ns, opts =>
    match lookupA opts n with
    | some v => some v
    | none => findNamed ns opts

/-- The post-scan binding loop of `parse`: iterate the resolved command's
own `$input` in declaration order, carrying the positional cursor `index`
and accumulating the bound `input` object and the `errors` pushed after the
scan.  A conversion that throws aborts the whole loop (`Except.error`). -/
def bindFields (aS : Bool) (args : List String) (opts : List (String × String)) :
    List (String × Entry) → ℕ → List (String × JsValue) → List CliErr →
    Except Thrown (ℕ × List (String × JsValue) × List CliErr)
  | [], idx, inp, errs => .ok (idx, inp, errs)
  | (key, .pos p) :: fields, idx, inp, errs =>
    if p.list then
      let raw := args.drop idx
      let errs₁ := errs ++
        (if !aS && raw.length = 0 && p.required then [.missingRequiredArgument key] else [])
      match convert p.kind (.inr raw) with
      | .error t => .error t
      | .ok v => bindFields aS args opts fields args.length (setA inp key v) errs₁
    else
      match args[idx]? with
      | some rawv =>
        match convert p.kind (.inl rawv) with
        | .error t => .error t
        | .ok v => bindFields aS args opts fields (idx + 1) (setA inp key v) errs
      | none =>
        let errs₁ := errs ++ (if p.required then [.missingRequiredArgument key] else [])
        match p.dflt with
        | some d => bindFields aS args opts fields (idx + 1) (setA inp key d) errs₁
        | none =>
          let errs₂ := errs₁ ++ (if p.required then [.missingRequiredArgument key] else [])
          bindFields aS args opts fields (idx + 1) inp errs₂
  | (key, .opt o) :: fields, idx, inp, errs =>
    match findNamed o.names opts with
    | some rawv =>
      let rv : String ⊕ List String :=
        if o.list then .inr (jsSplit (o.separator.getD ",") rawv) else .inl rawv
      match convert o.kind rv with
      | .error t => .error t
      | .ok v => bindFields aS args opts fields idx (setA inp key v) errs
    | none =>
      match o.dflt with
      | some d => bindFields aS args opts fields idx (setA inp key d) errs
      | none =>
        let errs₁ := errs ++ (if o.required then [.missingRequiredOption key] else [])
        bindFields aS args opts fields idx inp errs₁

/-- The `ParseResult` of `command.ts`. -/
structure ParseResult where
  cmd : Cmd
  input : List (String × JsValue)
  errors : List CliErr
  isVersion : Bool
  isHelp : Bool

/-- The scan state at the top of `parse`. -/
def initState (c : Cmd) : ScanState :=
  { cmd := c, found := false, args := [], opts := [], errors := [],
    isHelp := false, isVersion := false }

/-- `Command.parse(argv)` for a parentless command: build the merged map
once, scan the tokens, bind the resolved command's fields, then append a
single `TooManyArgumentsError` when unclaimed positional tokens remain and
surpassing is disallowed.  An exception thrown by a conversion escapes as
`Except.error` (the source has no catch around the binding loop). -/
def parse (root : Cmd) (argv : List String) : Except Thrown ParseResult :=
  let map := buildMapNP root
  let st := scanTokens map argv.length (initState root) argv
  match bindFields st.cmd.allowSurpassArgLimit st.args st.opts st.cmd.input 0 [] [] with
  | .error t => .error t
  | .ok (idx, inp, berrs) =>
    let remaining := st.args.drop idx
    let errs := st.errors ++ berrs ++
      (if !st.cmd.allowSurpassArgLimit && remaining.length > 0 then [.tooManyArguments] else [])
    .ok { cmd := st.cmd, input := inp, errors := errs,
          isVersion := st.isVersion, isHelp := st.isHelp }

/-!
## The middleware dispatcher (`compose` of `command.ts`)

`compose(mws)` shares one `index` variable across the chain and rejects a
`dispatch(i)` with `i <= index` with `new Error("next() called multiple
times")`.  When the middlewares are exhausted (`mws[i]` undefined) the
`finalNext` — in `Command.run`, the command action — is invoked.

A middleware is user code; the model represents the class of middlewares
relevant to the contract: a middleware that invokes its `next` continuation
`k` times sequentially, awaiting each invocation and propagating its
rejection (so `MwChain` is a list of such counts `k`).  The dispatcher
state tracks `index` and how many times the final action ran.
-/

/-- The message `compose` rejects repeated `next()` calls with. -/
def nextErrMsg : String := "next() called multiple times"

/-- The dispatcher state: the shared `index` (starting at `-1`) and the
number of times the final action (the `finalNext` of `Command.run`) has
been invoked. -/
structure MwState where
  index : ℤ
  actionRuns : ℕ
deriving DecidableEq, Repr

/-- A middleware invoking `next` a given number of times, sequentially,
propagating the first rejection. -/
def nextLoop (next : MwState → Except String Unit × MwState) :
    ℕ → MwState → Except String Unit × MwState
  | 0, s => (.ok (), s)
  | k + 1, s =>
    match next s with
    | (.error e, s') => (.error e, s')
    | (.ok _, s') => nextLoop next k s'

/-- `dispatch(i)` over the suffix of the middleware chain starting at
absolute position `i`: reject when `i <= index`; otherwise set `index := i`
and either run the final action (chain exhausted) or run the middleware at
`i`, whose `next` is `dispatch(i+1)` on the rest of the chain. -/
def dispatchAt : List ℕ → ℕ → MwState → Except String Unit × MwState
  | [], i, s =>
    if (i : ℤ) ≤ s.index then (.error nextErrMsg, s)
    else (.ok (), { index := i, actionRuns := s.actionRuns + 1 })
  | k :: rest, i, s =>
    if (i : ℤ) ≤ s.index then (.error nextErrMsg, s)
    else nextLoop (fun s' => dispatchAt rest (i + 1) s') k { s with index := i }

/-- Running the composed chain: `dispatch(0)` with `index = -1`. -/
def composeRun (mws : List ℕ) : Except String Unit × MwState :=
  dispatchAt mws 0 { index := -1, actionRuns := 0 }

/-- A field whose entry does not register the key `k` in the merged map
(no alias of an `Option` field equals `k`; positional fields register no
string key). -/
def entryAvoids (k : String) (p : String × Entry) : Prop :=
  match p with
  | (_, .opt o) => k ∉ o.names
  | (_, .pos _) => True

/-- A childless root command used to state claims about `parse`. -/
def leafCmd (input : List (String × Entry)) : Cmd :=
  .mk ["root"] input false false .nil

/-- The net effect of one resolved boolean short flag in a cluster: the
`h`/`V` special update followed by `opts[char] = "true"`. -/
def charStepTrue (c : Char) (st : ScanState) : ScanState :=
  let st₁ := (specialShort c st).1
  { st₁ with opts := setA st₁.opts (String.singleton c) "true" }

/-!
## Basic lemmas about the association-list operations
-/

theorem lookupA_setA {α : Type} (m : List (String × α)) (n k : String) (v : α) :
    lookupA (setA m n v) k = if n = k then some v else lookupA m k := by
  induction m with
  | nil => simp [setA, lookupA]
  | cons p rest ih =>
    obtain ⟨k', v'⟩ := p
    by_cases h1 : k' = n
    · subst h1
      simp only [setA, if_pos rfl]
      by_cases h2 : k' = k
      · subst h2; simp [lookupA]
      · simp [lookupA, h2]
    · simp only [setA, if_neg h1]
      by_cases h2 : k' = k
      · subst h2
        have h3 : n ≠ k' := fun hh => h1 hh.symm
        simp [lookupA, h3]
      · simp [lookupA, h2, ih]

theorem lookupA_foldl_setA {α : Type} (ns : List String) (m : List (String × α))
    (v : α) (k : String) :
    lookupA (ns.foldl (fun m n => setA m n v) m) k =
      if k ∈ ns then some v else lookupA m k := by
  induction ns generalizing m with
  | nil => simp
  | cons n ns ih =>
    rw [List.foldl_cons, ih, lookupA_setA]
    by_cases h1 : k ∈ ns
    · simp [h1, List.mem_cons]
    · by_cases h2 : n = k
      · simp [h1, h2, List.mem_cons]
      · have h3 : ¬ k = n := fun hh => h2 hh.symm
        simp [h1, h2, h3, List.mem_cons]

theorem findNamed_nil (ns : List String) : findNamed ns [] = none := by
  induction ns with
  | nil => rfl
  | cons n ns ih => simp [findNamed, lookupA, ih]

theorem findNamed_single (ns : List String) (k v : String) :
    findNamed ns [(k, v)] = if k ∈ ns then some v else none := by
  induction ns with
  | nil => simp [findNamed]
  | cons n ns ih =>
    by_cases h : k = n
    · subst h; simp [findNamed, lookupA]
    · simp [findNamed, lookupA, fun hn : n = k => h hn.symm, ih, h, List.mem_cons]

theorem lookupA_ownStep_avoid (m : StrMap) (p : String × Entry) (k : String)
    (h : entryAvoids k p) : lookupA (ownStep m p) k = lookupA m k := by
  obtain ⟨fk, e⟩ := p
  cases e with
  | opt o =>
    simp only [ownStep, lookupA_foldl_setA]
    simp [entryAvoids] at h
    simp [h]
  | pos _ => rfl

theorem lookupA_foldl_ownStep_avoid (fields : List (String × Entry)) (m : StrMap)
    (k : String) (h : ∀ p ∈ fields, entryAvoids k p) :
    lookupA (fields.foldl ownStep m) k = lookupA m k := by
  induction fields generalizing m with
  | nil => rfl
  | cons p rest ih =>
    rw [List.foldl_cons, ih _ fun q hq => h q (List.mem_cons_of_mem _ hq),
      lookupA_ownStep_avoid _ _ _ (h p (List.mem_cons_self _ _))]

theorem lookupA_ownMap_cons (fk : String) (o : OptData)
    (rest : List (String × Entry)) (k : String)
    (h : ∀ p ∈ rest, entryAvoids k p) :
    lookupA (ownMap ((fk, .opt o) :: rest)) k =
      if k ∈ o.names then some (fk, .opt o) else none := by
  rw [ownMap, List.foldl_cons, lookupA_foldl_ownStep_avoid _ _ _ h]
  simp [ownStep, lookupA_foldl_setA, lookupA]

theorem buildMapNP_leaf (n : List String) (input : List (String × Entry))
    (u s : Bool) : buildMapNP (.mk n input u s .nil) = ownMap input := rfl

/-!
## The scanning loop: consumed-token bound and fuel irrelevance
-/

theorem length_tail_le {α : Type} (l : List α) : l.tail.length ≤ l.length := by
  cases l <;> simp

theorem clusterWalk_len (map : StrMap) (cs : List Char) (uv : Option String)
    (st : ScanState) (rest : List String) :
    (clusterWalk map cs uv st rest).2.length ≤ rest.length := by
  induction cs generalizing uv st rest with
  | nil => simp [clusterWalk]
  | cons c cs ih =>
    simp only [clusterWalk]
    rcases hgo : getOption map (specialShort c st).1 (String.singleton c)
      (specialShort c st).2 with ⟨o, st'⟩
    cases o with
    | none => simpa using ih uv st' rest
    | some e =>
      dsimp only
      split
      · exact le_trans (ih none _ rest.tail) (length_tail_le rest)
      · exact ih none _ rest

theorem scanTokens_fuel (map : StrMap) :
    ∀ (f₁ f₂ : ℕ) (st : ScanState) (ts : List String),
      ts.length ≤ f₁ → ts.length ≤ f₂ →
      scanTokens map f₁ st ts = scanTokens map f₂ st ts := by
  intro f₁
  induction f₁ with
  | zero =>
    intro f₂ st ts h1 _
    have h : ts = [] := List.eq_nil_of_length_eq_zero (Nat.le_zero.mp h1)
    subst h
    cases f₂ <;> rfl
  | succ a ih =>
    intro f₂ st ts h1 h2
    cases ts with
    | nil => cases f₂ <;> rfl
    | cons arg rest =>
      cases f₂ with
      | zero => simp at h2
      | succ b =>
        have hra : rest.length ≤ a := by simpa using h1
        have hrb : rest.length ≤ b := by simpa using h2
        simp only [scanTokens]
        by_cases hl : jsStartsWith arg "--" = true
        · simp only [hl, if_true]
          rcases hgo : getOption map (specialLong (splitEq (strDrop arg 2)).1 st).1
            (splitEq (strDrop arg 2)).1
            (specialLong (splitEq (strDrop arg 2)).1 st).2 with ⟨o, st'⟩
          cases o with
          | none => exact ih b st' rest hra hrb
          | some e =>
            dsimp only
            cases hv : (splitEq (strDrop arg 2)).2 with
            | none =>
              dsimp only
              split
              · exact ih b _ rest hra hrb
              · exact ih b _ rest.tail (le_trans (length_tail_le rest) hra)
                  (le_trans (length_tail_le rest) hrb)
            | some v => exact ih b _ rest hra hrb
        · simp only [hl, if_false, Bool.false_eq_true]
          by_cases hs : jsStartsWith arg "-" = true
          · simp only [hs, if_true]
            have hcl := clusterWalk_len map (splitEq (strDrop arg 1)).1.data
              (splitEq (strDrop arg 1)).2 st rest
            exact ih b _ _ (le_trans hcl hra) (le_trans hcl hrb)
          · simp only [hs, if_false, Bool.false_eq_true]
            cases hch : (if st.found = true then none else st.cmd.children.get arg) with
            | none => exact ih b _ rest hra hrb
            | some child => exact ih b _ rest hra hrb

/-!
## One-step characterizations of the scanning loop
-/

theorem scanTokens_nil (map : StrMap) (f : ℕ) (st : ScanState) :
    scanTokens map f st [] = st := by cases f <;> rfl

theorem getOption_found (map : StrMap) (st : ScanState) (k : String)
    (isSp : Bool) (fk : String) (e : Entry)
    (h : lookupA map k = some (fk, e)) :
    getOption map st k isSp = (some e, st) := by
  simp [getOption, h]

/-- A long token whose key resolves to a non-boolean entry and carries no
`=value` consumes the next raw token. -/
theorem scan_long_consume (map : StrMap) (f : ℕ) (st : ScanState)
    (arg : String) (rest : List String) (k fk : String) (e : Entry)
    (hl : jsStartsWith arg "--" = true)
    (hsp : splitEq (strDrop arg 2) = (k, none))
    (hlook : lookupA map k = some (fk, e))
    (hnb : e.kind.isBoolean = false) :
    scanTokens map (f + 1) st (arg :: rest) =
      scanTokens map f (setOpt (specialLong k st).1 k e rest.head?) rest.tail := by
  simp only [scanTokens, hl, if_true, hsp,
    getOption_found map (specialLong k st).1 k (specialLong k st).2 fk e hlook,
    hnb, Bool.false_eq_true, if_false]

/-- A long token with an `=value` whose key resolves binds via `setOption`
without consuming a token. -/
theorem scan_long_eqvalue (map : StrMap) (f : ℕ) (st : ScanState)
    (arg : String) (rest : List String) (k v fk : String) (e : Entry)
    (hl : jsStartsWith arg "--" = true)
    (hsp : splitEq (strDrop arg 2) = (k, some v))
    (hlook : lookupA map k = some (fk, e)) :
    scanTokens map (f + 1) st (arg :: rest) =
      scanTokens map f (setOpt (specialLong k st).1 k e (some v)) rest := by
  simp only [scanTokens, hl, if_true, hsp,
    getOption_found map (specialLong k st).1 k (specialLong k st).2 fk e hlook]

/-- A bare long token whose key resolves to a boolean entry binds without
consuming a token. -/
theorem scan_long_boolean (map : StrMap) (f : ℕ) (st : ScanState)
    (arg : String) (rest : List String) (k fk : String) (e : Entry)
    (hl : jsStartsWith arg "--" = true)
    (hsp : splitEq (strDrop arg 2) = (k, none))
    (hlook : lookupA map k = some (fk, e))
    (hb : e.kind.isBoolean = true) :
    scanTokens map (f + 1) st (arg :: rest) =
      scanTokens map f (setOpt (specialLong k st).1 k e none) rest := by
  simp only [scanTokens, hl, if_true, hsp,
    getOption_found map (specialLong k st).1 k (specialLong k st).2 fk e hlook,
    hb, if_true]

/-- A bare token that matches no pending child is appended to `args`. -/
theorem scan_bare (map : StrMap) (f : ℕ) (st : ScanState)
    (arg : String) (rest : List String)
    (h1 : jsStartsWith arg "--" = false)
    (h2 : jsStartsWith arg "-" = false)
    (hch : (if st.found then none else st.cmd.children.get arg) = none) :
    scanTokens map (f + 1) st (arg :: rest) =
      scanTokens map f { st with found := true, args := st.args ++ [arg] } rest := by
  simp only [scanTokens, h1, h2, Bool.false_eq_true, if_false, hch]

/-- A short token is handled by the cluster walk. -/
theorem scan_short (map : StrMap) (f : ℕ) (st : ScanState)
    (arg : String) (rest : List String) (s : String) (v : Option String)
    (h1 : jsStartsWith arg "--" = false)
    (h2 : jsStartsWith arg "-" = true)
    (hsp : splitEq (strDrop arg 1) = (s, v)) :
    scanTokens map (f + 1) st (arg :: rest) =
      scanTokens map f (clusterWalk map s.data v st rest).1
        (clusterWalk map s.data v st rest).2 := by
  simp only [scanTokens, h1, h2, Bool.false_eq_true, if_false, if_true, hsp]

theorem setOpt_boolean (st : ScanState) (k : String) (e : Entry) (x : Option String)
    (h : e.kind.isBoolean = true) :
    setOpt st k e x = { st with opts := setA st.opts k "true" } := by
  simp [setOpt, h]

theorem setOpt_nonbool_some (st : ScanState) (k v : String) (e : Entry)
    (h : e.kind.isBoolean = false) :
    setOpt st k e (some v) = { st with opts := setA st.opts k v } := by
  simp [setOpt, h]

theorem setOpt_nonbool_none (st : ScanState) (k : String) (e : Entry)
    (h : e.kind.isBoolean = false) :
    setOpt st k e none = st := by
  simp [setOpt, h]

theorem specialLong_other (k : String) (st : ScanState)
    (hh : k ≠ "help") (hv : k ≠ "version") : specialLong k st = (st, false) := by
  simp [specialLong, hh, hv]

/-!
## The claims
-/

/-- C5: `alias(...)` is supposed to append the given names to `$names` and
re-register the command with its parent so each new alias resolves; the
source instead evaluates `this.$names.concat(aliases)` and discards the
result (`Array.prototype.concat` does not mutate), so re-registration sees
the unchanged name list: after `child.alias("ss")` on a child named `sub`,
the parent resolves `"sub"` but not `"ss"`, while the spec-modelled alias
operation does register `"ss"`. -/
theorem claim_C5_alias_discards_names :
    ((aliasOp ((Cmd.mk ["root"] [] false false .nil).add
          (Cmd.mk ["sub"] [] false false .nil))
        (Cmd.mk ["sub"] [] false false .nil) ["ss"]).children.get "ss" = none) ∧
    ((aliasOp ((Cmd.mk ["root"] [] false false .nil).add
          (Cmd.mk ["sub"] [] false false .nil))
        (Cmd.mk ["sub"] [] false false .nil) ["ss"]).children.get "sub"
      = some (Cmd.mk ["sub"] [] false false .nil)) ∧
    ((aliasPerSpec ((Cmd.mk ["root"] [] false false .nil).add
          (Cmd.mk ["sub"] [] false false .nil))
        (Cmd.mk ["sub"] [] false false .nil) ["ss"]).1.children.get "ss"
      = some (Cmd.mk ["sub", "ss"] [] false false .nil)) :=
  ⟨rfl, rfl, rfl⟩

/-- C1 (counterexample): with a `bigint` option bound to the non-numeric
text `"abc"`, `parse` does not return a `ParseResult` at all — the
conversion's `SyntaxError` escapes `parse` — so the remaining fields (here
a required option that would have produced a missing-required error in the
error list) are never processed, contrary to the claim that parse still
processes all remaining fields and returns a `ParseResult`. -/
theorem claim_C1_counterexample :
    parse (leafCmd [("n", .opt (mkOption .bigint ["-n", "--n"])),
                    ("m", .opt (mkOption .string ["-m"]))]) ["--n", "abc"]
      = .error .syntaxError := rfl

/-- C7 (counterexample): a required `Positional` with a declared default,
parsed against an empty argument vector, binds the default *and still
reports a `MissingRequiredArgumentError`*, contrary to the claim that no
missing-required error is reported when a default is present. -/
theorem claim_C7_counterexample :
    parse (leafCmd [("f", .pos { mkPositional .string with dflt := some (.str "d") })]) []
      = .ok { cmd := leafCmd [("f", .pos { mkPositional .string with dflt := some (.str "d") })],
              input := [("f", .str "d")],
              errors := [.missingRequiredArgument "f"],
              isVersion := false, isHelp := false } := rfl

/-- C3 (counterexample): in the cluster `-xy` with `x` and `y` both
non-boolean (string) flags, the *second* non-boolean character also
consumes a raw token: parsing `["-xy", "1", "2"]` binds `y = "2"`,
contrary to the claim that only the first non-boolean character in a
cluster may consume a value and subsequent ones see no value. -/
theorem claim_C3_counterexample :
    parse (leafCmd [("x", .opt (mkOption .string ["-x"])),
                    ("y", .opt (mkOption .string ["-y"]))]) ["-xy", "1", "2"]
      = .ok { cmd := leafCmd [("x", .opt (mkOption .string ["-x"])),
                              ("y", .opt (mkOption .string ["-y"]))],
              input := [("x", .str "1"), ("y", .str "2")],
              errors := [], isVersion := false, isHelp := false } := rfl

/-- C4 (counterexample): for a value containing `=`, the single-token and
two-token forms do not bind identically: `--k=a=b` binds `"a"` (the
destructured `split("=")` drops everything after the second `=`), while
`--k` `a=b` binds `"a=b"`. -/
theorem claim_C4_counterexample :
    (parse (leafCmd [("k", .opt (mkOption .string ["-k", "--k"]))]) ["--k=a=b"]
      = .ok { cmd := leafCmd [("k", .opt (mkOption .string ["-k", "--k"]))],
              input := [("k", .str "a")],
              errors := [], isVersion := false, isHelp := false }) ∧
    (parse (leafCmd [("k", .opt (mkOption .string ["-k", "--k"]))]) ["--k", "a=b"]
      = .ok { cmd := leafCmd [("k", .opt (mkOption .string ["-k", "--k"]))],
              input := [("k", .str "a=b")],
              errors := [], isVersion := false, isHelp := false }) ∧
    parse (leafCmd [("k", .opt (mkOption .string ["-k", "--k"]))]) ["--k=a=b"]
      ≠ parse (leafCmd [("k", .opt (mkOption .string ["-k", "--k"]))]) ["--k", "a=b"] := by
  refine ⟨rfl, rfl, ?_⟩
  intro h
  rw [show parse (leafCmd [("k", .opt (mkOption .string ["-k", "--k"]))]) ["--k=a=b"]
      = .ok { cmd := leafCmd [("k", .opt (mkOption .string ["-k", "--k"]))],
              input := [("k", .str "a")],
              errors := [], isVersion := false, isHelp := false } from rfl,
    show parse (leafCmd [("k", .opt (mkOption .string ["-k", "--k"]))]) ["--k", "a=b"]
      = .ok { cmd := leafCmd [("k", .opt (mkOption .string ["-k", "--k"]))],
              input := [("k", .str "a=b")],
              errors := [], isVersion := false, isHelp := false } from rfl] at h
  injection h with h
  have h2 := congrArg ParseResult.input h
  simp [JsValue.str.injEq] at h2

/-- C4 (amended): for every command tree, any key whose merged-map entry is
a non-boolean option, and any value `v` such that `--key=v` splits back
into `(key, v)` (equivalently, neither the key nor `v` contains `=`): the single
token `--key=v` and the two tokens `--key`, `v` produce identical
`ParseResult`s (the whole result, not just the bound value). -/
theorem claim_C4_amended (cmd : Cmd) (k v fk : String) (e : Entry)
    (rest : List String) (t1 t2 : String)
    (h1 : jsStartsWith t1 "--" = true)
    (h2 : splitEq (strDrop t1 2) = (k, some v))
    (h3 : jsStartsWith t2 "--" = true)
    (h4 : splitEq (strDrop t2 2) = (k, none))
    (h5 : lookupA (buildMapNP cmd) k = some (fk, e))
    (h6 : e.kind.isBoolean = false) :
    parse cmd (t1 :: rest) = parse cmd (t2 :: v :: rest) := by
  simp only [parse]
  have e1 : scanTokens (buildMapNP cmd) (t1 :: rest).length (initState cmd) (t1 :: rest)
      = scanTokens (buildMapNP cmd) rest.length
          (setOpt (specialLong k (initState cmd)).1 k e (some v)) rest := by
    rw [List.length_cons]
    exact scan_long_eqvalue _ _ _ _ _ _ _ _ _ h1 h2 h5
  have e2 : scanTokens (buildMapNP cmd) (t2 :: v :: rest).length (initState cmd) (t2 :: v :: rest)
      = scanTokens (buildMapNP cmd) (rest.length + 1)
          (setOpt (specialLong k (initState cmd)).1 k e (some v)) rest := by
    rw [List.length_cons, List.length_cons]
    have h := scan_long_consume (buildMapNP cmd) (rest.length + 1) (initState cmd)
      t2 (v :: rest) k fk e h3 h4 h5 h6
    simpa using h
  rw [e1, e2, scanTokens_fuel _ rest.length (rest.length + 1) _ rest (le_refl _) (Nat.le_succ _)]

/-- C6: for a declared boolean option, a long token `--key=v` — for any
`v`, including `"false"` — behaves exactly like the bare flag `--key`
(value ignored, no token consumed: the `ParseResult`s coincide for any
following tokens), and parsing the single token binds the option's field
to `true` with no errors. -/
theorem claim_C6_boolean_eq_ignored :
    (∀ (cmd : Cmd) (k v fk : String) (e : Entry) (rest : List String) (t tb : String),
      jsStartsWith t "--" = true → splitEq (strDrop t 2) = (k, some v) →
      jsStartsWith tb "--" = true → splitEq (strDrop tb 2) = (k, none) →
      lookupA (buildMapNP cmd) k = some (fk, e) → e.kind.isBoolean = true →
      parse cmd (t :: rest) = parse cmd (tb :: rest)) ∧
    (∀ (fk : String) (o : OptData) (k v t : String),
      o.kind = .boolean → o.list = false → k ∈ o.names →
      k ≠ "help" → k ≠ "version" →
      jsStartsWith t "--" = true → splitEq (strDrop t 2) = (k, some v) →
      parse (leafCmd [(fk, .opt o)]) [t]
        = .ok { cmd := leafCmd [(fk, .opt o)], input := [(fk, .bool true)],
                errors := [], isVersion := false, isHelp := false }) := by
  constructor
  · intro cmd k v fk e rest t tb ht hts htb htbs hlook hb
    simp only [parse]
    rw [List.length_cons, List.length_cons,
      scan_long_eqvalue _ _ _ _ _ _ _ _ _ ht hts hlook,
      scan_long_boolean _ _ _ _ _ _ _ _ htb htbs hlook hb,
      setOpt_boolean _ _ _ _ hb, setOpt_boolean _ _ _ _ hb]
  · intro fk o k v t hkind hlist hk hh hv ht hts
    have hisb : (Entry.opt o).kind.isBoolean = true := by
      simp [Entry.kind, hkind, Kind.isBoolean]
    have hlook : lookupA (buildMapNP (leafCmd [(fk, .opt o)])) k = some (fk, .opt o) := by
      rw [leafCmd, buildMapNP_leaf, lookupA_ownMap_cons _ _ _ _ (by intro p hp; cases hp)]
      simp [hk]
    simp only [parse]
    rw [show ([t] : List String).length = 0 + 1 from rfl,
      scan_long_eqvalue _ 0 _ t [] k v fk (.opt o) ht hts hlook,
      scanTokens_nil, specialLong_other _ _ hh hv, setOpt_boolean _ _ _ _ hisb]
    simp [bindFields, findNamed_single, hk, hlist, hkind, convert, convertOne,
      setA, initState, leafCmd, Cmd.input, Cmd.allowSurpassArgLimit]

/-- C10: a non-boolean option flag as the final argv token with no
`=value`: the undefined look-ahead is discarded by `setOption` (nothing —
in particular not the string `"undefined"` — is bound as the raw value),
so the field falls through to its default when one is declared, and to a
`MissingRequiredOptionError` when required with no default, and is simply
absent otherwise. -/
theorem claim_C10_dangling_flag (fk : String) (o : OptData) (k t : String)
    (ht : jsStartsWith t "--" = true)
    (hs : splitEq (strDrop t 2) = (k, none))
    (hk : k ∈ o.names)
    (hnb : o.kind.isBoolean = false)
    (hh : k ≠ "help") (hv : k ≠ "version") :
    parse (leafCmd [(fk, .opt o)]) [t]
      = .ok { cmd := leafCmd [(fk, .opt o)],
              input := match o.dflt with
                       | some d => [(fk, d)]
                       | none => [],
              errors := match o.dflt with
                        | some _ => []
                        | none =>
                          if o.required then [.missingRequiredOption fk] else [],
              isVersion := false, isHelp := false } := by
  have hisb : (Entry.opt o).kind.isBoolean = false := hnb
  have hlook : lookupA (buildMapNP (leafCmd [(fk, .opt o)])) k = some (fk, .opt o) := by
    rw [leafCmd, buildMapNP_leaf, lookupA_ownMap_cons _ _ _ _ (by intro p hp; cases hp)]
    simp [hk]
  simp only [parse]
  rw [show ([t] : List String).length = 0 + 1 from rfl,
    scan_long_consume _ 0 _ t [] k fk (.opt o) ht hs hlook hisb,
    specialLong_other _ _ hh hv]
  simp only [List.head?_nil, List.tail_nil]
  dsimp only
  simp only [setOpt_nonbool_none _ _ _ hisb, scanTokens_nil]
  rcases hd : o.dflt with _ | d <;>
    simp [bindFields, findNamed_nil, hd, initState, leafCmd, Cmd.input,
      Cmd.allowSurpassArgLimit, setA]

/-- C2: the code silently binds `NaN` for a non-numeric raw value of a
`number` field — for both an Option and a Positional — with an empty error
list; no `ConversionError` exists anywhere in the sources.  (The spec
mandates a reported conversion error instead, so this theorem exhibits the
code's divergence from the claim.) -/
theorem claim_C2_nan_silently_bound :
    (∀ (fk : String) (o : OptData) (k t raw : String),
      o.kind = .number → o.list = false → k ∈ o.names →
      k ≠ "help" → k ≠ "version" →
      jsStartsWith t "--" = true → splitEq (strDrop t 2) = (k, none) →
      jsParseFloat raw = .nan →
      parse (leafCmd [(fk, .opt o)]) [t, raw]
        = .ok { cmd := leafCmd [(fk, .opt o)], input := [(fk, .num .nan)],
                errors := [], isVersion := false, isHelp := false }) ∧
    (∀ (fk raw : String),
      jsStartsWith raw "--" = false → jsStartsWith raw "-" = false →
      jsParseFloat raw = .nan →
      parse (leafCmd [(fk, .pos (mkPositional .number))]) [raw]
        = .ok { cmd := leafCmd [(fk, .pos (mkPositional .number))],
                input := [(fk, .num .nan)],
                errors := [], isVersion := false, isHelp := false }) := by
  constructor
  · intro fk o k t raw hkind hlist hk hh hv ht hs hnan
    have hisb : (Entry.opt o).kind.isBoolean = false := by
      simp [Entry.kind, hkind, Kind.isBoolean]
    have hlook : lookupA (buildMapNP (leafCmd [(fk, .opt o)])) k = some (fk, .opt o) := by
      rw [leafCmd, buildMapNP_leaf, lookupA_ownMap_cons _ _ _ _ (by intro p hp; cases hp)]
      simp [hk]
    simp only [parse]
    rw [show ([t, raw] : List String).length = 1 + 1 from rfl,
      scan_long_consume _ 1 _ t [raw] k fk (.opt o) ht hs hlook hisb,
      specialLong_other _ _ hh hv]
    simp only [List.head?_cons, List.tail_cons]
    dsimp only
    simp only [setOpt_nonbool_some _ _ _ _ hisb, scanTokens_nil]
    simp [bindFields, findNamed_single, hk, hlist, hkind, convert, convertOne, hnan,
      setA, initState, leafCmd, Cmd.input, Cmd.allowSurpassArgLimit]
  · intro fk raw h1 h2 hnan
    simp only [parse]
    rw [show ([raw] : List String).length = 0 + 1 from rfl,
      scan_bare _ 0 _ raw [] h1 h2 (by simp [initState, leafCmd, Cmd.children, Children.get]),
      scanTokens_nil]
    simp [bindFields, mkPositional, convert, convertOne, hnan, setA, initState,
      leafCmd, Cmd.input, Cmd.allowSurpassArgLimit]

/-- C7 (amended): with an empty argument vector, an `Option` entry with a
declared default binds the default with no error (even when required); a
non-list `Positional` with a default also binds the default but, when
required, still reports a `MissingRequiredArgumentError`; a list
`Positional` never falls back to its default — it binds the empty list
(and reports a missing-required error when required). -/
theorem claim_C7_amended :
    (∀ (fk : String) (o : OptData) (d : JsValue),
      o.dflt = some d →
      parse (leafCmd [(fk, .opt o)]) []
        = .ok { cmd := leafCmd [(fk, .opt o)], input := [(fk, d)], errors := [],
                isVersion := false, isHelp := false }) ∧
    (∀ (fk : String) (p : PosData) (d : JsValue),
      p.dflt = some d → p.list = false →
      parse (leafCmd [(fk, .pos p)]) []
        = .ok { cmd := leafCmd [(fk, .pos p)], input := [(fk, d)],
                errors := if p.required then [.missingRequiredArgument fk] else [],
                isVersion := false, isHelp := false }) ∧
    (∀ (fk : String) (p : PosData),
      p.list = true →
      parse (leafCmd [(fk, .pos p)]) []
        = .ok { cmd := leafCmd [(fk, .pos p)], input := [(fk, .arr [])],
                errors := if p.required then [.missingRequiredArgument fk] else [],
                isVersion := false, isHelp := false }) := by
  refine ⟨?_, ?_, ?_⟩
  · intro fk o d hd
    simp only [parse, scanTokens_nil]
    simp [bindFields, findNamed_nil, hd, initState, leafCmd, Cmd.input,
      Cmd.allowSurpassArgLimit, setA]
  · intro fk p d hd hlist
    simp only [parse, scanTokens_nil]
    rcases hr : p.required with _ | _ <;>
      simp [bindFields, hlist, hd, hr, initState, leafCmd, Cmd.input,
        Cmd.allowSurpassArgLimit, setA]
  · intro fk p hlist
    simp only [parse, scanTokens_nil]
    rcases hr : p.required with _ | _ <;>
      simp [bindFields, hlist, hr, initState, leafCmd, Cmd.input,
        Cmd.allowSurpassArgLimit, setA, convert, convertMany, Except.map]

/-- C1 (amended): a conversion failure — `BigInt` on non-numeric text, or
an external validator reporting issues — propagates out of `parse` as a
thrown exception (a rejected promise): `parse` yields no `ParseResult`,
whatever fields remain after the failing one (they are not processed, and
no accumulated error list is returned). -/
theorem claim_C1_amended :
    (∀ (fk k t raw : String) (o : OptData) (restSchema : List (String × Entry)),
      o.kind = .bigint → o.list = false → k ∈ o.names →
      k ≠ "help" → k ≠ "version" →
      jsStartsWith t "--" = true → splitEq (strDrop t 2) = (k, none) →
      (∀ p ∈ restSchema, entryAvoids k p) →
      jsBigInt raw = none →
      parse (leafCmd ((fk, .opt o) :: restSchema)) [t, raw]
        = .error .syntaxError) ∧
    (∀ (fk k t raw : String) (f : String → Except (List String) JsValue)
      (msgs : List String) (o : OptData) (restSchema : List (String × Entry)),
      o.kind = .schema f → o.list = false → k ∈ o.names →
      k ≠ "help" → k ≠ "version" →
      jsStartsWith t "--" = true → splitEq (strDrop t 2) = (k, none) →
      (∀ p ∈ restSchema, entryAvoids k p) →
      f raw = .error msgs →
      parse (leafCmd ((fk, .opt o) :: restSchema)) [t, raw]
        = .error (.inputValidation msgs)) := by
  constructor
  · intro fk k t raw o restSchema hkind hlist hk hh hv ht hs havoid hbig
    have hisb : (Entry.opt o).kind.isBoolean = false := by
      simp [Entry.kind, hkind, Kind.isBoolean]
    have hlook : lookupA (buildMapNP (leafCmd ((fk, .opt o) :: restSchema))) k
        = some (fk, .opt o) := by
      rw [leafCmd, buildMapNP_leaf, lookupA_ownMap_cons _ _ _ _ havoid]
      simp [hk]
    simp only [parse]
    rw [show ([t, raw] : List String).length = 1 + 1 from rfl,
      scan_long_consume _ 1 _ t [raw] k fk (.opt o) ht hs hlook hisb,
      specialLong_other _ _ hh hv]
    simp only [List.head?_cons, List.tail_cons]
    dsimp only
    simp only [setOpt_nonbool_some _ _ _ _ hisb, scanTokens_nil]
    simp [bindFields, findNamed_single, hk, hlist, hkind, convert, convertOne, hbig,
      setA, initState, leafCmd, Cmd.input, Cmd.allowSurpassArgLimit]
  · intro fk k t raw f msgs o restSchema hkind hlist hk hh hv ht hs havoid hval
    have hisb : (Entry.opt o).kind.isBoolean = false := by
      simp [Entry.kind, hkind, Kind.isBoolean]
    have hlook : lookupA (buildMapNP (leafCmd ((fk, .opt o) :: restSchema))) k
        = some (fk, .opt o) := by
      rw [leafCmd, buildMapNP_leaf, lookupA_ownMap_cons _ _ _ _ havoid]
      simp [hk]
    simp only [parse]
    rw [show ([t, raw] : List String).length = 1 + 1 from rfl,
      scan_long_consume _ 1 _ t [raw] k fk (.opt o) ht hs hlook hisb,
      specialLong_other _ _ hh hv]
    simp only [List.head?_cons, List.tail_cons]
    dsimp only
    simp only [setOpt_nonbool_some _ _ _ _ hisb, scanTokens_nil]
    simp [bindFields, findNamed_single, hk, hlist, hkind, convert, convertOne,
      validate, hval, setA, initState, leafCmd, Cmd.input, Cmd.allowSurpassArgLimit]

/-- Witness for C4 (amended), at `--k=val` versus `--k val`. -/
theorem claim_C4_amended_witness :
    parse (leafCmd [("k", .opt (mkOption .string ["-k", "--k"]))]) ["--k=val"]
      = parse (leafCmd [("k", .opt (mkOption .string ["-k", "--k"]))]) ["--k", "val"] :=
  claim_C4_amended (leafCmd [("k", .opt (mkOption .string ["-k", "--k"]))]) "k" "val" "k"
    (.opt (mkOption .string ["-k", "--k"])) [] "--k=val" "--k"
    (by decide) (by decide) (by decide) (by decide) rfl rfl

/-- Witness for C6, at a boolean `--v=false` (with a following token for
the non-consumption half). -/
theorem claim_C6_witness :
    (parse (leafCmd [("v", .opt (mkOption .boolean ["-v", "--v"]))]) ["--v=false", "x"]
      = parse (leafCmd [("v", .opt (mkOption .boolean ["-v", "--v"]))]) ["--v", "x"]) ∧
    parse (leafCmd [("v", .opt (mkOption .boolean ["-v", "--v"]))]) ["--v=false"]
      = .ok { cmd := leafCmd [("v", .opt (mkOption .boolean ["-v", "--v"]))],
              input := [("v", .bool true)], errors := [],
              isVersion := false, isHelp := false } :=
  ⟨claim_C6_boolean_eq_ignored.1 (leafCmd [("v", .opt (mkOption .boolean ["-v", "--v"]))])
      "v" "false" "v" (.opt (mkOption .boolean ["-v", "--v"])) ["x"] "--v=false" "--v"
      (by decide) (by decide) (by decide) (by decide) rfl rfl,
   claim_C6_boolean_eq_ignored.2 "v" (mkOption .boolean ["-v", "--v"]) "v" "false" "--v=false"
      rfl rfl (by decide) (by decide) (by decide) (by decide) (by decide)⟩

/-- Witness for C10, at a required string option `--o` with no default. -/
theorem claim_C10_witness :
    parse (leafCmd [("o", .opt (mkOption .string ["-o", "--o"]))]) ["--o"]
      = .ok { cmd := leafCmd [("o", .opt (mkOption .string ["-o", "--o"]))],
              input := [], errors := [.missingRequiredOption "o"],
              isVersion := false, isHelp := false } :=
  claim_C10_dangling_flag "o" (mkOption .string ["-o", "--o"]) "o" "--o"
    (by decide) (by decide) (by decide) rfl (by decide) (by decide)

/-- Witness for C2, at `--p abc` for a number option and `abc` for a
number positional. -/
theorem claim_C2_witness :
    (parse (leafCmd [("p", .opt (mkOption .number ["-p", "--p"]))]) ["--p", "abc"]
      = .ok { cmd := leafCmd [("p", .opt (mkOption .number ["-p", "--p"]))],
              input := [("p", .num .nan)], errors := [],
              isVersion := false, isHelp := false }) ∧
    parse (leafCmd [("x", .pos (mkPositional .number))]) ["abc"]
      = .ok { cmd := leafCmd [("x", .pos (mkPositional .number))],
              input := [("x", .num .nan)], errors := [],
              isVersion := false, isHelp := false } :=
  ⟨claim_C2_nan_silently_bound.1 "p" (mkOption .number ["-p", "--p"]) "p" "--p" "abc"
      rfl rfl (by decide) (by decide) (by decide) (by decide) (by decide) (by decide),
   claim_C2_nan_silently_bound.2 "x" "abc" (by decide) (by decide) (by decide)⟩

/-- Witness for C7 (amended): a defaulted number option, a defaulted
required string positional, and a list positional, each against `[]`. -/
theorem claim_C7_amended_witness :
    (parse (leafCmd [("port", .opt { mkOption .number ["-p"] with
        dflt := some (.num (.num 3000)) })]) []
      = .ok { cmd := leafCmd [("port", .opt { mkOption .number ["-p"] with
                dflt := some (.num (.num 3000)) })],
              input := [("port", .num (.num 3000))], errors := [],
              isVersion := false, isHelp := false }) ∧
    (parse (leafCmd [("f", .pos { mkPositional .string with dflt := some (.str "d") })]) []
      = .ok { cmd := leafCmd [("f", .pos { mkPositional .string with dflt := some (.str "d") })],
              input := [("f", .str "d")],
              errors := [.missingRequiredArgument "f"],
              isVersion := false, isHelp := false }) ∧
    parse (leafCmd [("xs", .pos { mkPositional .string with
        list := true, dflt := some (.str "unused") })]) []
      = .ok { cmd := leafCmd [("xs", .pos { mkPositional .string with
                list := true, dflt := some (.str "unused") })],
              input := [("xs", .arr [])],
              errors := [.missingRequiredArgument "xs"],
              isVersion := false, isHelp := false } :=
  ⟨claim_C7_amended.1 "port" { mkOption .number ["-p"] with dflt := some (.num (.num 3000)) }
      (.num (.num 3000)) rfl,
   claim_C7_amended.2.1 "f" { mkPositional .string with dflt := some (.str "d") }
      (.str "d") rfl rfl,
   claim_C7_amended.2.2 "xs" { mkPositional .string with
      list := true, dflt := some (.str "unused") } rfl⟩

/-- Witness for C1 (amended): a bigint option fed `"abc"` in front of a
further required field, and a schema-validated option whose validator
reports an issue. -/
theorem claim_C1_amended_witness :
    (parse (leafCmd [("n", .opt (mkOption .bigint ["-n", "--n"])),
                     ("m", .opt (mkOption .string ["-m"]))]) ["--n", "abc"]
      = .error .syntaxError) ∧
    parse (leafCmd [("s", .opt (mkOption (.schema fun _ => .error ["bad"]) ["-s", "--s"]))])
        ["--s", "x"]
      = .error (.inputValidation ["bad"]) :=
  ⟨claim_C1_amended.1 "n" "n" "--n" "abc" (mkOption .bigint ["-n", "--n"])
      [("m", .opt (mkOption .string ["-m"]))] rfl rfl (by decide) (by decide) (by decide)
      (by decide) (by decide)
      (by
        intro p hp
        rcases List.mem_singleton.mp hp with rfl
        simp [entryAvoids, mkOption, stripDashes])
      (by decide),
   claim_C1_amended.2 "s" "s" "--s" "x" (fun _ => .error ["bad"]) ["bad"]
      (mkOption (.schema fun _ => .error ["bad"]) ["-s", "--s"]) [] rfl rfl (by decide)
      (by decide) (by decide) (by decide) (by decide) (by intro p hp; cases hp) rfl⟩

/-!
## Cluster lemmas (claim C3)
-/

/-- A cluster of characters each resolving to a *boolean* entry neither
consumes tokens nor threads a value: it folds `charStepTrue` over the
characters. -/
theorem clusterWalk_all_boolean (map : StrMap) (cs : List Char) (st : ScanState)
    (rest : List String)
    (hall : ∀ c ∈ cs, ∃ fk e, lookupA map (String.singleton c) = some (fk, e) ∧
      e.kind.isBoolean = true) :
    clusterWalk map cs none st rest
      = (cs.foldl (fun st c => charStepTrue c st) st, rest) := by
  induction cs generalizing st with
  | nil => rfl
  | cons c cs ih =>
    obtain ⟨fk, e, hlook, hb⟩ := hall c (List.mem_cons_self _ _)
    simp only [clusterWalk,
      getOption_found map (specialShort c st).1 _ (specialShort c st).2 fk e hlook]
    rw [if_neg (by simp [hb])]
    rw [setOpt_boolean _ _ _ _ hb, List.foldl_cons]
    exact ih _ fun c' hc' => hall c' (List.mem_cons_of_mem _ hc')

/-- A single non-boolean short flag with no pending value consumes the
next raw token. -/
theorem clusterWalk_nonbool_consume (map : StrMap) (c : Char) (st : ScanState)
    (rest : List String) (fk : String) (e : Entry)
    (hlook : lookupA map (String.singleton c) = some (fk, e))
    (hnb : e.kind.isBoolean = false) :
    clusterWalk map [c] none st rest
      = (setOpt (specialShort c st).1 (String.singleton c) e rest.head?, rest.tail) := by
  simp only [clusterWalk,
    getOption_found map (specialShort c st).1 _ (specialShort c st).2 fk e hlook]
  rw [if_pos (by simp [hnb])]

/-- A resolved *boolean* head character of a cluster binds `"true"`,
discarding any pending `usedValue`, and clears it for the rest of the
cluster. -/
theorem clusterWalk_boolean_head (map : StrMap) (c : Char) (cs : List Char)
    (uv : Option String) (st : ScanState) (rest : List String)
    (fk : String) (e : Entry)
    (hlook : lookupA map (String.singleton c) = some (fk, e))
    (hb : e.kind.isBoolean = true) :
    clusterWalk map (c :: cs) uv st rest
      = clusterWalk map cs none (charStepTrue c st) rest := by
  simp only [clusterWalk,
    getOption_found map (specialShort c st).1 _ (specialShort c st).2 fk e hlook]
  rw [if_neg (by simp [hb]), setOpt_boolean _ _ _ _ hb]
  rfl

/-- Two non-boolean short flags clustered together each consume one of the
next raw tokens. -/
theorem clusterWalk_two_nonbool (map : StrMap) (c₁ c₂ : Char) (st : ScanState)
    (v₁ v₂ : String) (rest : List String) (fk₁ fk₂ : String) (e₁ e₂ : Entry)
    (hl₁ : lookupA map (String.singleton c₁) = some (fk₁, e₁))
    (hn₁ : e₁.kind.isBoolean = false)
    (hl₂ : lookupA map (String.singleton c₂) = some (fk₂, e₂))
    (hn₂ : e₂.kind.isBoolean = false) :
    clusterWalk map [c₁, c₂] none st (v₁ :: v₂ :: rest)
      = (setOpt (specialShort c₂
            (setOpt (specialShort c₁ st).1 (String.singleton c₁) e₁ (some v₁))).1
          (String.singleton c₂) e₂ (some v₂), rest) := by
  simp only [clusterWalk,
    getOption_found map (specialShort c₁ st).1 _ (specialShort c₁ st).2 fk₁ e₁ hl₁]
  rw [if_pos (by simp [hn₁])]
  simp only [List.head?_cons, List.tail_cons]
  exact clusterWalk_nonbool_consume map c₂ _ (v₂ :: rest) fk₂ e₂ hl₂ hn₂

theorem specialShort_opts (c : Char) (st : ScanState) :
    (specialShort c st).1.opts = st.opts := by
  unfold specialShort
  split
  · rfl
  · split <;> rfl

theorem foldl_charStepTrue_opts (cs : List Char) (st : ScanState) :
    (cs.foldl (fun st c => charStepTrue c st) st).opts
      = cs.foldl (fun o c => setA o (String.singleton c) "true") st.opts := by
  induction cs generalizing st with
  | nil => rfl
  | cons c cs ih =>
    rw [List.foldl_cons, List.foldl_cons, ih]
    simp [charStepTrue, specialShort_opts]

theorem lookupA_foldl_singleton_true (cs : List Char) (o : List (String × String))
    (c : Char) (hc : c ∈ cs) :
    lookupA (cs.foldl (fun o c => setA o (String.singleton c) "true") o)
      (String.singleton c) = some "true" := by
  have hmap : cs.foldl (fun o c => setA o (String.singleton c) "true") o
      = (cs.map String.singleton).foldl (fun o n => setA o n "true") o := by
    rw [List.foldl_map]
  rw [hmap, lookupA_foldl_setA]
  simp only [if_pos (List.mem_map_of_mem _ hc)]

/-- Expanding a cluster of boolean flags into separate one-character flag
tokens scans to the same state. -/
theorem scan_expanded_booleans (map : StrMap) :
    ∀ (cs : List Char) (etoks : List String) (st : ScanState) (rest : List String),
      List.Forall₂ (fun c t => jsStartsWith t "--" = false ∧ jsStartsWith t "-" = true ∧
        splitEq (strDrop t 1) = (String.singleton c, none)) cs etoks →
      (∀ c ∈ cs, ∃ fk e, lookupA map (String.singleton c) = some (fk, e) ∧
        e.kind.isBoolean = true) →
      scanTokens map (etoks.length + rest.length) st (etoks ++ rest)
        = scanTokens map rest.length
            (cs.foldl (fun st c => charStepTrue c st) st) rest := by
  intro cs etoks st rest hf
  induction hf generalizing st with
  | nil => intro _; simp
  | @cons c t cs' etoks' hpt hrest ih =>
    intro hall
    obtain ⟨h1, h2, h3⟩ := hpt
    have hlen : (t :: etoks').length + rest.length = (etoks'.length + rest.length) + 1 := by
      simp [List.length_cons]
      omega
    rw [List.cons_append, hlen,
      scan_short map (etoks'.length + rest.length) st t (etoks' ++ rest)
        (String.singleton c) none h1 h2 h3]
    have hone : clusterWalk map (String.singleton c).data none st (etoks' ++ rest)
        = ([c].foldl (fun st c => charStepTrue c st) st, etoks' ++ rest) :=
      clusterWalk_all_boolean map [c] st (etoks' ++ rest)
        (by
          intro c' hc'
          rcases List.mem_singleton.mp hc' with rfl
          exact hall _ (List.mem_cons_self _ _))
    rw [hone]
    rw [ih _ fun c' hc' => hall c' (List.mem_cons_of_mem _ hc')]
    rfl

/-!
## Counting `TooManyArgumentsError`s (claim C8)

Neither the scanning loop nor the binding loop ever records a
`TooManyArgumentsError`; the single conditional push after binding is the
only source.
-/

theorem count_tooMany_append_not (errs adds : List CliErr)
    (h : CliErr.tooManyArguments ∉ adds) :
    (errs ++ adds).count .tooManyArguments = errs.count .tooManyArguments := by
  rw [List.count_append]
  have hz : adds.count CliErr.tooManyArguments = 0 :=
    List.count_eq_zero.mpr (by simpa using h)
  omega

theorem setOpt_errors (st : ScanState) (k : String) (e : Entry) (v : Option String) :
    (setOpt st k e v).errors = st.errors := by
  unfold setOpt
  split
  · rfl
  · cases v <;> rfl

theorem specialLong_errors (k : String) (st : ScanState) :
    (specialLong k st).1.errors = st.errors := by
  unfold specialLong
  split
  · rfl
  · split <;> rfl

theorem specialShort_errors (c : Char) (st : ScanState) :
    (specialShort c st).1.errors = st.errors := by
  unfold specialShort
  split
  · rfl
  · split <;> rfl

theorem getOption_count (map : StrMap) (st : ScanState) (k : String) (sp : Bool) :
    ((getOption map st k sp).2).errors.count .tooManyArguments
      = st.errors.count .tooManyArguments := by
  unfold getOption
  cases hm : lookupA map k with
  | none =>
    dsimp only
    split
    · exact count_tooMany_append_not _ _ (by simp)
    · rfl
  | some p => obtain ⟨fk, e⟩ := p; rfl

theorem clusterWalk_count (map : StrMap) (cs : List Char) (uv : Option String)
    (st : ScanState) (rest : List String) :
    ((clusterWalk map cs uv st rest).1).errors.count .tooManyArguments
      = st.errors.count .tooManyArguments := by
  induction cs generalizing uv st rest with
  | nil => rfl
  | cons c cs ih =>
    simp only [clusterWalk]
    have hsp : (specialShort c st).1.errors = st.errors := specialShort_errors c st
    cases hgo : getOption map (specialShort c st).1 (String.singleton c)
        (specialShort c st).2 with
    | mk o st' =>
      have hst' : st'.errors.count CliErr.tooManyArguments
          = st.errors.count CliErr.tooManyArguments := by
        have hc := getOption_count map (specialShort c st).1 (String.singleton c)
          (specialShort c st).2
        rw [hgo] at hc
        rw [hc, hsp]
      cases o with
      | none => rw [ih uv st' rest, hst']
      | some e =>
        dsimp only
        split
        · rw [ih none _ rest.tail, setOpt_errors, hst']
        · rw [ih none _ rest, setOpt_errors, hst']

theorem scanTokens_count (map : StrMap) :
    ∀ (fuel : ℕ) (st : ScanState) (ts : List String),
      ((scanTokens map fuel st ts).errors).count .tooManyArguments
        = st.errors.count .tooManyArguments := by
  intro fuel
  induction fuel with
  | zero => intro st ts; cases ts <;> rfl
  | succ f ih =>
    intro st ts
    cases ts with
    | nil => rfl
    | cons arg rest =>
      simp only [scanTokens]
      by_cases hl : jsStartsWith arg "--" = true
      · simp only [hl, if_true]
        have hsp : (specialLong (splitEq (strDrop arg 2)).1 st).1.errors = st.errors :=
          specialLong_errors _ st
        cases hgo : getOption map (specialLong (splitEq (strDrop arg 2)).1 st).1
            (splitEq (strDrop arg 2)).1
            (specialLong (splitEq (strDrop arg 2)).1 st).2 with
        | mk o st' =>
          have hst' : st'.errors.count CliErr.tooManyArguments
              = st.errors.count CliErr.tooManyArguments := by
            have hc := getOption_count map (specialLong (splitEq (strDrop arg 2)).1 st).1
              (splitEq (strDrop arg 2)).1 (specialLong (splitEq (strDrop arg 2)).1 st).2
            rw [hgo] at hc
            rw [hc, hsp]
          cases o with
          | none => rw [ih st' rest, hst']
          | some e =>
            dsimp only
            rcases hv2 : (splitEq (strDrop arg 2)).2 with _ | v
            · try simp only [hv2]
              try dsimp only
              by_cases hbi : e.kind.isBoolean = true
              · rw [if_pos hbi, ih _ rest, setOpt_errors, hst']
              · rw [if_neg hbi, ih _ rest.tail, setOpt_errors, hst']
            · try simp only [hv2]
              try dsimp only
              rw [ih _ rest, setOpt_errors, hst']
      · simp only [hl, if_false, Bool.false_eq_true]
        by_cases hs : jsStartsWith arg "-" = true
        · simp only [hs, if_true]
          rw [ih _ _, clusterWalk_count]
        · simp only [hs, if_false, Bool.false_eq_true]
          cases hch : (if st.found = true then none else st.cmd.children.get arg) with
          | none => rw [ih _ rest]
          | some child => rw [ih _ rest]

theorem bindFields_count (aS : Bool) (args : List String)
    (opts : List (String × String)) :
    ∀ (fields : List (String × Entry)) (idx : ℕ) (inp : List (String × JsValue))
      (errs : List CliErr) (res : ℕ × List (String × JsValue) × List CliErr),
      bindFields aS args opts fields idx inp errs = .ok res →
      res.2.2.count .tooManyArguments = errs.count .tooManyArguments := by
  intro fields
  induction fields with
  | nil =>
    intro idx inp errs res h
    simp only [bindFields, Except.ok.injEq] at h
    subst h
    rfl
  | cons p fields ih =>
    obtain ⟨key, e⟩ := p
    intro idx inp errs res h
    cases e with
    | pos p =>
      by_cases hl : p.list = true
      · simp only [bindFields, hl, if_true] at h
        cases hc : convert p.kind (.inr (args.drop idx)) with
        | error t => rw [hc] at h; cases h
        | ok v =>
          rw [hc] at h
          rw [ih _ _ _ _ h]
          exact count_tooMany_append_not _ _ (by split <;> simp)
      · simp only [bindFields, hl, Bool.false_eq_true, if_false] at h
        cases ha : args[idx]? with
        | some rawv =>
          rw [ha] at h
          dsimp only at h
          cases hc : convert p.kind (.inl rawv) with
          | error t => rw [hc] at h; cases h
          | ok v =>
            rw [hc] at h
            dsimp only at h
            exact ih _ _ _ _ h
        | none =>
          rw [ha] at h
          dsimp only at h
          cases hd : p.dflt with
          | some d =>
            rw [hd] at h
            dsimp only at h
            rw [ih _ _ _ _ h]
            exact count_tooMany_append_not _ _ (by split <;> simp)
          | none =>
            rw [hd] at h
            dsimp only at h
            rw [ih _ _ _ _ h, List.append_assoc]
            exact count_tooMany_append_not _ _
              (by
                simp only [List.mem_append]
                rintro (h1 | h1) <;> revert h1 <;> split <;> simp)
    | opt o =>
      cases hf : findNamed o.names opts with
      | some rawv =>
        simp only [bindFields, hf] at h
        cases hc : convert o.kind
            (if o.list = true then .inr (jsSplit (o.separator.getD ",") rawv)
             else .inl rawv) with
        | error t => rw [hc] at h; cases h
        | ok v =>
          rw [hc] at h
          exact ih _ _ _ _ h
      | none =>
        simp only [bindFields, hf] at h
        cases hd : o.dflt with
        | some d =>
          rw [hd] at h
          exact ih _ _ _ _ h
        | none =>
          rw [hd] at h
          rw [ih _ _ _ _ h]
          exact count_tooMany_append_not _ _ (by split <;> simp)

/-- C8: for every command tree and argument vector on which `parse`
returns a result, the number of `TooManyArgumentsError`s in the error list
is exactly one when positional tokens remain unclaimed after binding and
the resolved command disallows surpassing, and zero otherwise — in
particular it never exceeds one regardless of how many extra tokens
remain, and it is zero whenever `allowSurpassArgLimit` is set. -/
theorem claim_C8_too_many_once (cmd : Cmd) (argv : List String)
    (st : ScanState) (idx : ℕ) (inp : List (String × JsValue))
    (berrs : List CliErr) (r : ParseResult)
    (hst : st = scanTokens (buildMapNP cmd) argv.length (initState cmd) argv)
    (hb : bindFields st.cmd.allowSurpassArgLimit st.args st.opts st.cmd.input 0 [] []
            = .ok (idx, inp, berrs))
    (hp : parse cmd argv = .ok r) :
    r.errors.count .tooManyArguments
      = if !st.cmd.allowSurpassArgLimit && (st.args.drop idx).length > 0
        then 1 else 0 := by
  subst hst
  simp only [parse] at hp
  rw [hb] at hp
  simp only [Except.ok.injEq] at hp
  subst hp
  simp only []
  rw [List.count_append, List.count_append]
  have h1 : (scanTokens (buildMapNP cmd) argv.length (initState cmd) argv).errors.count
      CliErr.tooManyArguments = 0 := by
    rw [scanTokens_count]
    rfl
  have h2 : berrs.count CliErr.tooManyArguments = 0 := by
    rw [bindFields_count _ _ _ _ _ _ _ _ hb]
    rfl
  rw [h1, h2]
  split <;> simp

/-- Witness for C8: two unclaimed tokens produce exactly one error. -/
theorem claim_C8_witness :
    (parse (leafCmd []) ["a", "b"]).map (fun r => r.errors.count CliErr.tooManyArguments)
      = .ok 1 := by
  have h := claim_C8_too_many_once (leafCmd []) ["a", "b"]
    (scanTokens (buildMapNP (leafCmd [])) 2 (initState (leafCmd [])) ["a", "b"])
    0 [] []
    { cmd := leafCmd [], input := [], errors := [.tooManyArguments],
      isVersion := false, isHelp := false }
    rfl rfl rfl
  rw [show parse (leafCmd []) ["a", "b"]
      = .ok { cmd := leafCmd [], input := [], errors := [.tooManyArguments],
              isVersion := false, isHelp := false } from rfl]
  simp only [Except.map]
  exact congrArg Except.ok (h.trans (by rfl))

/-!
## Lemmas about the middleware dispatcher
-/

theorem dispatchAt_stuck (l : List ℕ) (i : ℕ) (s : MwState)
    (h : (i : ℤ) ≤ s.index) : dispatchAt l i s = (.error nextErrMsg, s) := by
  cases l <;> simp [dispatchAt, h]

theorem nextLoop_one (next : MwState → Except String Unit × MwState) (s : MwState) :
    nextLoop next 1 s = next s := by
  simp only [nextLoop]
  rcases hn : next s with ⟨r, s'⟩
  cases r with
  | error e => rfl
  | ok v => cases v; simp [nextLoop]

/-- Once the shared `index` has passed `i`, further `next` invocations at
`i + 1` reject without touching the state. -/
theorem nextLoop_frozen (next : MwState → Except String Unit × MwState) (i : ℕ)
    (hstuck : ∀ s', (i : ℤ) + 1 ≤ s'.index → next s' = (.error nextErrMsg, s')) :
    ∀ (k : ℕ) (s' : MwState), (i : ℤ) + 1 ≤ s'.index →
      (nextLoop next k s').2 = s' ∧
      (∀ msg, (nextLoop next k s').1 = .error msg → msg = nextErrMsg) := by
  intro k s' h
  cases k with
  | zero => simp [nextLoop]
  | succ k => simp [nextLoop, hstuck s' h]

theorem nextLoop_props (next : MwState → Except String Unit × MwState) (i : ℕ)
    (hstuck : ∀ s', (i : ℤ) + 1 ≤ s'.index → next s' = (.error nextErrMsg, s'))
    (hmono : ∀ s', s'.index ≤ (next s').2.index)
    (hadv : ∀ s', s'.index < (i : ℤ) + 1 → (i : ℤ) + 1 ≤ (next s').2.index)
    (hbound : ∀ s', (next s').2.actionRuns ≤ s'.actionRuns + 1)
    (hmsg : ∀ s' msg, (next s').1 = .error msg → msg = nextErrMsg) :
    ∀ (k : ℕ) (s : MwState), (i : ℤ) ≤ s.index →
      s.index ≤ (nextLoop next k s).2.index ∧
      (nextLoop next k s).2.actionRuns ≤ s.actionRuns + 1 ∧
      (∀ msg, (nextLoop next k s).1 = .error msg → msg = nextErrMsg) := by
  intro k
  induction k with
  | zero => intro s _; simp [nextLoop]
  | succ k ih =>
    intro s hs
    by_cases hc : (i : ℤ) + 1 ≤ s.index
    · simp only [nextLoop, hstuck s hc]
      exact ⟨le_refl _, Nat.le_succ _, fun msg hm => by simpa using hm.symm⟩
    · have hlt : s.index < (i : ℤ) + 1 := not_le.mp hc
      simp only [nextLoop]
      cases hn : next s with
      | mk r s₁ =>
        have h1 : s.index ≤ s₁.index := by have := hmono s; rw [hn] at this; exact this
        have h2 : (i : ℤ) + 1 ≤ s₁.index := by
          have := hadv s hlt; rw [hn] at this; exact this
        have h3 : s₁.actionRuns ≤ s.actionRuns + 1 := by
          have := hbound s; rw [hn] at this; exact this
        cases r with
        | error e =>
          dsimp only
          refine ⟨h1, h3, fun msg hm => ?_⟩
          have he : e = msg := by simpa using hm
          subst he
          exact hmsg s e (by rw [hn])
        | ok v =>
          dsimp only
          obtain ⟨hf1, hf2⟩ := nextLoop_frozen next i hstuck k s₁ h2
          refine ⟨?_, ?_, hf2⟩
          · rw [hf1]; exact h1
          · rw [hf1]; exact h3

theorem dispatchAt_props : ∀ (l : List ℕ) (i : ℕ) (s : MwState),
    ((i : ℤ) ≤ s.index → dispatchAt l i s = (.error nextErrMsg, s)) ∧
    s.index ≤ (dispatchAt l i s).2.index ∧
    (dispatchAt l i s).2.actionRuns ≤ s.actionRuns + 1 ∧
    (s.index < (i : ℤ) → (i : ℤ) ≤ (dispatchAt l i s).2.index) ∧
    (∀ msg, (dispatchAt l i s).1 = .error msg → msg = nextErrMsg) := by
  intro l
  induction l with
  | nil =>
    intro i s
    by_cases h : (i : ℤ) ≤ s.index
    · simp [dispatchAt, h]
    · have hlt := not_le.mp h
      refine ⟨fun hcon => absurd hcon h, ?_, ?_, ?_, ?_⟩ <;>
        simp [dispatchAt, h, le_of_lt hlt]
  | cons k rest ih =>
    intro i s
    by_cases h : (i : ℤ) ≤ s.index
    · simp [dispatchAt, h]
    · have hlt := not_le.mp h
      simp only [dispatchAt, if_neg h]
      have props := nextLoop_props (fun s' => dispatchAt rest (i + 1) s') i
        (fun s' hs' => (ih (i + 1) s').1 (by exact_mod_cast hs'))
        (fun s' => (ih (i + 1) s').2.1)
        (fun s' hs' => by
          have := (ih (i + 1) s').2.2.2.1 (by exact_mod_cast hs')
          exact_mod_cast this)
        (fun s' => (ih (i + 1) s').2.2.1)
        (fun s' msg => (ih (i + 1) s').2.2.2.2 msg)
      have hres := props k { s with index := (i : ℤ) } (by simp)
      refine ⟨fun hcon => absurd hcon h, ?_, ?_, ?_, hres.2.2⟩
      · exact le_trans (le_of_lt hlt) (by simpa using hres.1)
      · simpa using hres.2.1
      · intro _
        simpa using hres.1

/-- A middleware that invokes `next` at least twice makes the chain reject
with "next() called multiple times", with the final action having run at
most once more than before. -/
theorem dispatchAt_violation (k : ℕ) (rest : List ℕ) (i : ℕ) (s : MwState)
    (hk : 2 ≤ k) (hfresh : s.index < (i : ℤ)) :
    (dispatchAt (k :: rest) i s).1 = .error nextErrMsg ∧
    (dispatchAt (k :: rest) i s).2.actionRuns ≤ s.actionRuns + 1 := by
  simp only [dispatchAt, if_neg (not_le.mpr hfresh)]
  obtain ⟨k', rfl⟩ : ∃ k', k = k' + 2 := ⟨k - 2, by omega⟩
  simp only [nextLoop]
  have hprops := dispatchAt_props rest (i + 1) { s with index := (i : ℤ) }
  cases hn : dispatchAt rest (i + 1) { s with index := (i : ℤ) } with
  | mk r s₁ =>
    have h2 : (i : ℤ) + 1 ≤ s₁.index := by
      have hx := hprops.2.2.2.1
        (by show (i : ℤ) < ((i + 1 : ℕ) : ℤ); push_cast; omega)
      rw [hn] at hx
      have : ((i + 1 : ℕ) : ℤ) = (i : ℤ) + 1 := by push_cast; ring
      rw [this] at hx
      exact hx
    have h3 : s₁.actionRuns ≤ s.actionRuns + 1 := by
      have hx := hprops.2.2.1
      rw [hn] at hx
      simpa using hx
    cases r with
    | error e =>
      have he : e = nextErrMsg := by
        have hx := hprops.2.2.2.2 e
        rw [hn] at hx
        exact hx rfl
      subst he
      exact ⟨rfl, h3⟩
    | ok v =>
      have hstuck : dispatchAt rest (i + 1) s₁ = (.error nextErrMsg, s₁) :=
        (dispatchAt_props rest (i + 1) s₁).1
          (by have : ((i + 1 : ℕ) : ℤ) = (i : ℤ) + 1 := by push_cast; ring
              rw [this]; exact h2)
      dsimp only
      simp only [nextLoop, hstuck]
      exact ⟨trivial, h3⟩

/-- A run of middlewares that invoke `next` exactly once each advances the
dispatch cursor without touching anything else. -/
theorem dispatchAt_ones (j : ℕ) (l : List ℕ) (i : ℕ) (a : ℕ) :
    dispatchAt (List.replicate j 1 ++ l) i ⟨(i : ℤ) - 1, a⟩
      = dispatchAt l (i + j) ⟨((i : ℤ) + (j : ℤ)) - 1, a⟩ := by
  induction j generalizing i with
  | zero => simp
  | succ j ih =>
    rw [List.replicate_succ, List.cons_append]
    have hne : ¬ ((i : ℤ) ≤ (⟨(i : ℤ) - 1, a⟩ : MwState).index) := by simp
    simp only [dispatchAt, if_neg hne, nextLoop_one]
    have : ({ (⟨(i : ℤ) - 1, a⟩ : MwState) with index := (i : ℤ) } : MwState)
        = ⟨((i : ℤ) + 1) - 1, a⟩ := by simp
    rw [this, show (i : ℤ) + 1 = ((i + 1 : ℕ) : ℤ) by push_cast; ring,
      ih (i + 1)]
    congr 1
    · omega
    · congr 1
      push_cast
      ring

/-- C9: in the composed middleware chain, when every middleware before
position `j` invokes its continuation exactly once and the middleware at
`j` invokes it at least twice, the chain rejects with "next() called
multiple times" and the final action has run at most once (downstream is
not executed a second time). -/
theorem claim_C9_next_called_twice (mws : List ℕ) (j k : ℕ) (tail : List ℕ)
    (hpre : mws.take j = List.replicate j 1)
    (hj : mws.drop j = k :: tail)
    (hk : 2 ≤ k) :
    (composeRun mws).1 = .error nextErrMsg ∧
    (composeRun mws).2.actionRuns ≤ 1 := by
  have hm : mws = List.replicate j 1 ++ (k :: tail) := by
    rw [← hpre, ← hj, List.take_append_drop]
  have h0 : ({ index := -1, actionRuns := 0 } : MwState)
      = ⟨((0 : ℕ) : ℤ) - 1, 0⟩ := by norm_num
  rw [composeRun, hm, h0, dispatchAt_ones j (k :: tail) 0 0]
  have hv := dispatchAt_violation k tail (0 + j) ⟨(((0 : ℕ) : ℤ) + (j : ℤ)) - 1, 0⟩ hk
    (by push_cast; omega)
  exact ⟨hv.1, hv.2⟩

/-- Witness for C9: the chain `[1, 2]` (a well-behaved middleware followed
by one that calls `next` twice). -/
theorem claim_C9_witness :
    (composeRun [1, 2]).1 = .error nextErrMsg ∧
    (composeRun [1, 2]).2.actionRuns ≤ 1 :=
  claim_C9_next_called_twice [1, 2] 1 2 [] (by decide) (by decide) (by decide)

/-- C3 (amended): in a short-option cluster, (a) every cluster whose
characters all resolve to boolean flags parses exactly like the separate
one-character flag tokens, consuming nothing, and binds `"true"` for every
character; (b) non-boolean flag characters are *not* limited to the first
one — a cluster of two non-boolean flags consumes the next two raw tokens,
exactly as if the two flags had been written separately, each followed by
its value; (c) a trailing `=v` does not survive past the first resolved
character — when that character is boolean it discards `v`, and a
following non-boolean character consumes the next raw token instead
(`-ab=v w` parses like `-a -b w`). -/
theorem claim_C3_amended :
    (∀ (cmd : Cmd) (s : String) (rest : List String) (tokc : String)
       (etoks : List String),
      jsStartsWith tokc "--" = false → jsStartsWith tokc "-" = true →
      splitEq (strDrop tokc 1) = (s, none) →
      List.Forall₂ (fun (c : Char) (t : String) =>
        jsStartsWith t "--" = false ∧ jsStartsWith t "-" = true ∧
        splitEq (strDrop t 1) = (String.singleton c, none)) s.data etoks →
      (∀ c ∈ s.data, ∃ fk e,
        lookupA (buildMapNP cmd) (String.singleton c) = some (fk, e) ∧
        e.kind.isBoolean = true) →
      parse cmd (tokc :: rest) = parse cmd (etoks ++ rest) ∧
      (∀ c ∈ s.data,
        lookupA (scanTokens (buildMapNP cmd) 1 (initState cmd) [tokc]).opts
          (String.singleton c) = some "true")) ∧
    (∀ (cmd : Cmd) (c₁ c₂ : Char) (s tok t₁ t₂ v₁ v₂ : String)
       (rest : List String) (fk₁ fk₂ : String) (e₁ e₂ : Entry),
      jsStartsWith tok "--" = false → jsStartsWith tok "-" = true →
      splitEq (strDrop tok 1) = (s, none) → s.data = [c₁, c₂] →
      jsStartsWith t₁ "--" = false → jsStartsWith t₁ "-" = true →
      splitEq (strDrop t₁ 1) = (String.singleton c₁, none) →
      jsStartsWith t₂ "--" = false → jsStartsWith t₂ "-" = true →
      splitEq (strDrop t₂ 1) = (String.singleton c₂, none) →
      lookupA (buildMapNP cmd) (String.singleton c₁) = some (fk₁, e₁) →
      e₁.kind.isBoolean = false →
      lookupA (buildMapNP cmd) (String.singleton c₂) = some (fk₂, e₂) →
      e₂.kind.isBoolean = false →
      parse cmd (tok :: v₁ :: v₂ :: rest) = parse cmd (t₁ :: v₁ :: t₂ :: v₂ :: rest)) ∧
    (∀ (cmd : Cmd) (c₁ c₂ : Char) (s tok t₁ t₂ v w : String)
       (rest : List String) (fk₁ fk₂ : String) (e₁ e₂ : Entry),
      jsStartsWith tok "--" = false → jsStartsWith tok "-" = true →
      splitEq (strDrop tok 1) = (s, some v) → s.data = [c₁, c₂] →
      jsStartsWith t₁ "--" = false → jsStartsWith t₁ "-" = true →
      splitEq (strDrop t₁ 1) = (String.singleton c₁, none) →
      jsStartsWith t₂ "--" = false → jsStartsWith t₂ "-" = true →
      splitEq (strDrop t₂ 1) = (String.singleton c₂, none) →
      lookupA (buildMapNP cmd) (String.singleton c₁) = some (fk₁, e₁) →
      e₁.kind.isBoolean = true →
      lookupA (buildMapNP cmd) (String.singleton c₂) = some (fk₂, e₂) →
      e₂.kind.isBoolean = false →
      parse cmd (tok :: w :: rest) = parse cmd (t₁ :: t₂ :: w :: rest)) := by
  refine ⟨?_, ?_, ?_⟩
  · intro cmd s rest tokc etoks h1 h2 h3 hf hall
    constructor
    · simp only [parse]
      have el : scanTokens (buildMapNP cmd) (tokc :: rest).length (initState cmd)
          (tokc :: rest)
          = scanTokens (buildMapNP cmd) rest.length
              (s.data.foldl (fun st c => charStepTrue c st) (initState cmd)) rest := by
        rw [List.length_cons,
          scan_short (buildMapNP cmd) rest.length (initState cmd) tokc rest s none h1 h2 h3,
          clusterWalk_all_boolean (buildMapNP cmd) s.data (initState cmd) rest hall]
      have er : scanTokens (buildMapNP cmd) (etoks ++ rest).length (initState cmd)
          (etoks ++ rest)
          = scanTokens (buildMapNP cmd) rest.length
              (s.data.foldl (fun st c => charStepTrue c st) (initState cmd)) rest := by
        rw [List.length_append,
          scan_expanded_booleans (buildMapNP cmd) s.data etoks (initState cmd) rest hf hall]
      rw [el, er]
    · intro c hc
      have e1 : scanTokens (buildMapNP cmd) 1 (initState cmd) [tokc]
          = s.data.foldl (fun st c => charStepTrue c st) (initState cmd) := by
        rw [show (1 : ℕ) = 0 + 1 from rfl,
          scan_short (buildMapNP cmd) 0 (initState cmd) tokc [] s none h1 h2 h3,
          clusterWalk_all_boolean (buildMapNP cmd) s.data (initState cmd) [] hall]
        exact scanTokens_nil _ _ _
      rw [e1, foldl_charStepTrue_opts]
      exact lookupA_foldl_singleton_true s.data (initState cmd).opts c hc
  · intro cmd c₁ c₂ s tok t₁ t₂ v₁ v₂ rest fk₁ fk₂ e₁ e₂
      h1 h2 h3 hsd g1 g2 g3 g4 g5 g6 hl₁ hn₁ hl₂ hn₂
    simp only [parse]
    have el : scanTokens (buildMapNP cmd) (tok :: v₁ :: v₂ :: rest).length (initState cmd)
        (tok :: v₁ :: v₂ :: rest)
        = scanTokens (buildMapNP cmd) (rest.length + 1 + 1)
            (setOpt (specialShort c₂
                (setOpt (specialShort c₁ (initState cmd)).1 (String.singleton c₁) e₁
                  (some v₁))).1
              (String.singleton c₂) e₂ (some v₂)) rest := by
      rw [List.length_cons, List.length_cons, List.length_cons,
        scan_short (buildMapNP cmd) (rest.length + 1 + 1) (initState cmd) tok
          (v₁ :: v₂ :: rest) s none h1 h2 h3, hsd,
        clusterWalk_two_nonbool (buildMapNP cmd) c₁ c₂ (initState cmd) v₁ v₂ rest
          fk₁ fk₂ e₁ e₂ hl₁ hn₁ hl₂ hn₂]
    have er : scanTokens (buildMapNP cmd) (t₁ :: v₁ :: t₂ :: v₂ :: rest).length
        (initState cmd) (t₁ :: v₁ :: t₂ :: v₂ :: rest)
        = scanTokens (buildMapNP cmd) (rest.length + 1 + 1)
            (setOpt (specialShort c₂
                (setOpt (specialShort c₁ (initState cmd)).1 (String.singleton c₁) e₁
                  (some v₁))).1
              (String.singleton c₂) e₂ (some v₂)) rest := by
      rw [List.length_cons, List.length_cons, List.length_cons, List.length_cons,
        scan_short (buildMapNP cmd) (rest.length + 1 + 1 + 1) (initState cmd) t₁
          (v₁ :: t₂ :: v₂ :: rest) (String.singleton c₁) none g1 g2 g3,
        show (String.singleton c₁).data = [c₁] from rfl,
        clusterWalk_nonbool_consume (buildMapNP cmd) c₁ (initState cmd)
          (v₁ :: t₂ :: v₂ :: rest) fk₁ e₁ hl₁ hn₁]
      simp only [List.head?_cons, List.tail_cons]
      rw [scan_short (buildMapNP cmd) (rest.length + 1 + 1) _ t₂
          (v₂ :: rest) (String.singleton c₂) none g4 g5 g6,
        show (String.singleton c₂).data = [c₂] from rfl,
        clusterWalk_nonbool_consume (buildMapNP cmd) c₂ _ (v₂ :: rest) fk₂ e₂ hl₂ hn₂]
      simp only [List.head?_cons, List.tail_cons]
    rw [el, er]
  · intro cmd c₁ c₂ s tok t₁ t₂ v w rest fk₁ fk₂ e₁ e₂
      h1 h2 h3 hsd g1 g2 g3 g4 g5 g6 hl₁ hb₁ hl₂ hn₂
    simp only [parse]
    have el : scanTokens (buildMapNP cmd) (tok :: w :: rest).length (initState cmd)
        (tok :: w :: rest)
        = scanTokens (buildMapNP cmd) (rest.length + 1)
            (setOpt (specialShort c₂ (charStepTrue c₁ (initState cmd))).1
              (String.singleton c₂) e₂ (some w)) rest := by
      rw [List.length_cons, List.length_cons,
        scan_short (buildMapNP cmd) (rest.length + 1) (initState cmd) tok
          (w :: rest) s (some v) h1 h2 h3, hsd,
        clusterWalk_boolean_head (buildMapNP cmd) c₁ [c₂] (some v) (initState cmd)
          (w :: rest) fk₁ e₁ hl₁ hb₁,
        clusterWalk_nonbool_consume (buildMapNP cmd) c₂ _ (w :: rest) fk₂ e₂ hl₂ hn₂]
      simp only [List.head?_cons, List.tail_cons]
    have er : scanTokens (buildMapNP cmd) (t₁ :: t₂ :: w :: rest).length (initState cmd)
        (t₁ :: t₂ :: w :: rest)
        = scanTokens (buildMapNP cmd) (rest.length + 1)
            (setOpt (specialShort c₂ (charStepTrue c₁ (initState cmd))).1
              (String.singleton c₂) e₂ (some w)) rest := by
      rw [List.length_cons, List.length_cons, List.length_cons,
        scan_short (buildMapNP cmd) (rest.length + 1 + 1) (initState cmd) t₁
          (t₂ :: w :: rest) (String.singleton c₁) none g1 g2 g3,
        show (String.singleton c₁).data = [c₁] from rfl,
        clusterWalk_boolean_head (buildMapNP cmd) c₁ [] none (initState cmd)
          (t₂ :: w :: rest) fk₁ e₁ hl₁ hb₁]
      rw [show clusterWalk (buildMapNP cmd) [] none (charStepTrue c₁ (initState cmd))
          (t₂ :: w :: rest) = (charStepTrue c₁ (initState cmd), t₂ :: w :: rest) from rfl]
      rw [scan_short (buildMapNP cmd) (rest.length + 1) _ t₂
          (w :: rest) (String.singleton c₂) none g4 g5 g6,
        show (String.singleton c₂).data = [c₂] from rfl,
        clusterWalk_nonbool_consume (buildMapNP cmd) c₂ _ (w :: rest) fk₂ e₂ hl₂ hn₂]
      simp only [List.head?_cons, List.tail_cons]
    rw [el, er]

/-- Witness for C3 (amended): booleans `-ab` versus `-a -b`, `"true"`
bound for `a`, and strings `-xy 1 2` versus `-x 1 -y 2`. -/
theorem claim_C3_amended_witness :
    (parse (leafCmd [("a", .opt (mkOption .boolean ["-a"])),
                     ("b", .opt (mkOption .boolean ["-b"]))]) ["-ab"]
      = parse (leafCmd [("a", .opt (mkOption .boolean ["-a"])),
                        ("b", .opt (mkOption .boolean ["-b"]))]) ["-a", "-b"]) ∧
    (lookupA (scanTokens (buildMapNP (leafCmd [("a", .opt (mkOption .boolean ["-a"])),
        ("b", .opt (mkOption .boolean ["-b"]))])) 1
        (initState (leafCmd [("a", .opt (mkOption .boolean ["-a"])),
          ("b", .opt (mkOption .boolean ["-b"]))])) ["-ab"]).opts "a" = some "true") ∧
    (parse (leafCmd [("x", .opt (mkOption .string ["-x"])),
                     ("y", .opt (mkOption .string ["-y"]))]) ["-xy", "1", "2"]
      = parse (leafCmd [("x", .opt (mkOption .string ["-x"])),
                        ("y", .opt (mkOption .string ["-y"]))]) ["-x", "1", "-y", "2"]) ∧
    parse (leafCmd [("a", .opt (mkOption .boolean ["-a"])),
                    ("b", .opt (mkOption .string ["-b"]))]) ["-ab=v", "w"]
      = parse (leafCmd [("a", .opt (mkOption .boolean ["-a"])),
                        ("b", .opt (mkOption .string ["-b"]))]) ["-a", "-b", "w"] := by
  have hall : ∀ c ∈ ("ab" : String).data, ∃ fk e,
      lookupA (buildMapNP (leafCmd [("a", .opt (mkOption .boolean ["-a"])),
        ("b", .opt (mkOption .boolean ["-b"]))])) (String.singleton c) = some (fk, e) ∧
      e.kind.isBoolean = true := by
    intro c hc
    rw [show ("ab" : String).data = ['a', 'b'] from rfl] at hc
    rcases List.mem_cons.mp hc with rfl | hc
    · exact ⟨"a", .opt (mkOption .boolean ["-a"]), rfl, rfl⟩
    rcases List.mem_singleton.mp hc with rfl
    exact ⟨"b", .opt (mkOption .boolean ["-b"]), rfl, rfl⟩
  have hf : List.Forall₂ (fun (c : Char) (t : String) =>
      jsStartsWith t "--" = false ∧ jsStartsWith t "-" = true ∧
      splitEq (strDrop t 1) = (String.singleton c, none)) ("ab" : String).data
      ["-a", "-b"] := by
    rw [show ("ab" : String).data = ['a', 'b'] from rfl]
    exact .cons ⟨by decide, by decide, by decide⟩
      (.cons ⟨by decide, by decide, by decide⟩ .nil)
  have h1 := claim_C3_amended.1 (leafCmd [("a", .opt (mkOption .boolean ["-a"])),
      ("b", .opt (mkOption .boolean ["-b"]))]) "ab" [] "-ab" ["-a", "-b"]
    (by decide) (by decide) (by decide) hf hall
  refine ⟨h1.1, ?_, ?_, ?_⟩
  · have := h1.2 'a' (by rw [show ("ab" : String).data = ['a', 'b'] from rfl]; simp)
    simpa using this
  · exact claim_C3_amended.2.1 (leafCmd [("x", .opt (mkOption .string ["-x"])),
        ("y", .opt (mkOption .string ["-y"]))]) 'x' 'y' "xy" "-xy" "-x" "-y" "1" "2" []
      "x" "y" (.opt (mkOption .string ["-x"])) (.opt (mkOption .string ["-y"]))
      (by decide) (by decide) (by decide) (by decide) (by decide) (by decide)
      (by decide) (by decide) (by decide) (by decide) rfl rfl rfl rfl
  · exact claim_C3_amended.2.2 (leafCmd [("a", .opt (mkOption .boolean ["-a"])),
        ("b", .opt (mkOption .string ["-b"]))]) 'a' 'b' "ab" "-ab=v" "-a" "-b" "v" "w" []
      "a" "b" (.opt (mkOption .boolean ["-a"])) (.opt (mkOption .string ["-b"]))
      (by decide) (by decide) (by decide) (by decide) (by decide) (by decide)
      (by decide) (by decide) (by decide) (by decide) rfl rfl rfl rfl

end Convoker
